import Mathlib

/-!
# media-library: the `migrate` command line tool

A shallow embedding of `cmd/migrate/migrate.go`.

* The process environment (`os.Getenv`), the argument vector (`os.Args`), the
  wall clock (`time.Now`) and the file system (`os.MkdirAll`, `os.WriteFile`)
  are explicit inputs of the embedded functions.
* Package `log` writes are collected as a list of messages (without the date
  prefix and the final newline); `log.Fatal*` records its message and ends
  the run with exit status 1.
* `fmt.Print*` output is collected in `stdout`.
* The migration engine `*migrate.Migrate` is the imported library
  `github.com/golang-migrate/migrate/v4`. The commands are embedded over an
  interface `Engine` holding the five methods the program calls; the
  library's behaviour is given separately as `golangMigrate`.
* `int` and `uint` are 64 bits wide (`intSize`).
* The deferred `m.Close()` has no effect on what is observed here and is left out.
-/

deriving instance DecidableEq for Except

namespace MediaLibrary

/-! ## strconv -/

/-- Errors of package `strconv`: `ErrSyntax` and `ErrRange`. -/
inductive NumError where
  | ErrSyntax
  | ErrRange
  deriving DecidableEq, Repr

/-- `strconv.ParseBool`. -/
def ParseBool (str : String) : Except NumError Bool :=
  if str = "1" ∨ str = "t" ∨ str = "T" ∨ str = "TRUE" ∨ str = "true" ∨ str = "True" then
    .ok true
  else if str = "0" ∨ str = "f" ∨ str = "F" ∨ str = "FALSE" ∨ str = "false" ∨ str = "False" then
    .ok false
  else
    .error .ErrSyntax

/-- Width of `int` and `uint` on the target platform. -/
def intSize : Nat := 64

/-- `maxVal` of `strconv.ParseUint` for `bitSize = 64`: `1<<64 - 1`. -/
def maxVal : Nat := 2 ^ 64 - 1

/-- `cutoff` of `strconv.ParseUint` for base 10: `maxUint64/10 + 1`. -/
def cutoff : Nat := maxVal / 10 + 1

/-- The loop of `strconv.ParseUint` for base 10 over the remaining bytes, `n`
being the `uint64` accumulated so far. A byte that is not a decimal digit is a
syntax error (for base 10 neither letters nor underscores are accepted);
`n*10` and `n+d` are computed modulo `2^64` and checked as in the source. -/
def parseUintLoop : List Char → Nat → Except NumError Nat
  | [], n => .ok n
  | c :: cs, n =>
    if '0' ≤ c ∧ c ≤ '9' then
      let d := c.toNat - '0'.toNat
      if n ≥ cutoff then
        .error .ErrRange
      else
        let n10 := (n * 10) % 2 ^ 64
        let n1 := (n10 + d) % 2 ^ 64
        if n1 < n10 ∨ n1 > maxVal then
          .error .ErrRange
        else
          parseUintLoop cs n1
    else
      .error .ErrSyntax

/-- `strconv.ParseUint(s, 10, 64)`. -/
def ParseUint (s : String) : Except NumError Nat :=
  if s = "" then .error .ErrSyntax else parseUintLoop s.data 0

/-- `strconv.ParseInt(s, 10, 64)`: an optional leading sign is picked off,
the rest goes through `ParseUint`, and the result is checked against
`cutoff = 1 << 63`. A range error of `ParseUint` leaves `un = maxVal`, which
fails the same check, so it stays a range error. -/
def ParseInt (s : String) : Except NumError Int :=
  if s = "" then .error .ErrSyntax
  else
    let neg : Bool := s.data.head? = some '-'
    let rest : List Char :=
      if s.data.head? = some '+' ∨ s.data.head? = some '-' then s.data.tail else s.data
    match ParseUint (String.mk rest) with
    | .error .ErrSyntax => .error .ErrSyntax
    | .error .ErrRange => .error .ErrRange
    | .ok un =>
      if neg = false ∧ un ≥ 2 ^ 63 then .error .ErrRange
      else if neg = true ∧ un > 2 ^ 63 then .error .ErrRange
      else .ok (if neg = true then - (un : Int) else (un : Int))

/-- Conversion `uint(version)` of a `uint64`. -/
def toUint (v : Nat) : Nat := v % 2 ^ intSize

/-- Conversion `int(version)` of an `int64`: two's complement wrap to `intSize` bits. -/
def toInt (v : Int) : Int := (v + 2 ^ (intSize - 1)) % 2 ^ intSize - 2 ^ (intSize - 1)

/-! ## Connection string -/

/-- The process environment after `godotenv.Load`: `os.Getenv`, giving `""`
for a variable that is not set. -/
abbrev Env := String → String

/-- Lines 29-40 of `main`: the TLS option of the connection URI. -/
def tlsOpt (env : Env) : String :=
  let tlsEnabled : Bool :=
    match ParseBool (env "DB_TLS_ENABLED") with
    | .ok b => b
    | .error _ => false
  let tlsCaFile := env "DB_TLS_CA_FILE"
  if tlsEnabled ∧ tlsCaFile ≠ "" then
    "tls=true&tlsCAFile=" ++ tlsCaFile
  else
    "tls=false"

/-- Lines 42-49 of `main`: the MongoDB connection URI. `url.QueryEscape` is
the parameter `queryEscape`. -/
def mongoURI (queryEscape : String → String) (env : Env) : String :=
  "mongodb://" ++ queryEscape (env "DB_ADMIN_USER") ++ ":" ++
    queryEscape (env "DB_ADMIN_PASSWORD") ++ "@" ++ env "DB_HOST" ++ ":" ++
    env "DB_PORT" ++ "/" ++ env "DB_NAME" ++
    "?authSource=admin&replicaSet=rs0&readPreference=secondaryPreferred&retryWrites=false&" ++
    tlsOpt env

/-! ## Library functions the program only passes values through -/

/-- Library functions whose result the program writes out without inspecting
it: `url.QueryEscape`, `strconv.Quote` (used by the text of a `strconv`
error) and the string encoder of `encoding/json`. -/
structure Lib where
  QueryEscape : String → String
  Quote : String → String
  jsonString : String → String

/-- Text of a `*strconv.NumError` (its `Error` method) for function `fn` and input `num`. -/
def NumError.Error (lib : Lib) (fn num : String) : NumError → String
  | .ErrSyntax => "strconv." ++ fn ++ ": parsing " ++ lib.Quote num ++ ": invalid syntax"
  | .ErrRange => "strconv." ++ fn ++ ": parsing " ++ lib.Quote num ++ ": value out of range"

/-! ## Wall clock -/

/-- The fields of a `time.Time` that the layout `20060102150405` prints. -/
structure Time where
  year : Nat
  month : Nat
  day : Nat
  hour : Nat
  minute : Nat
  second : Nat

/-- Ranges of the fields of a wall-clock time with a four-digit year. -/
def Time.valid (t : Time) : Prop :=
  t.year < 10000 ∧ 1 ≤ t.month ∧ t.month ≤ 12 ∧ 1 ≤ t.day ∧ t.day ≤ 31 ∧
    t.hour < 24 ∧ t.minute < 60 ∧ t.second < 60

instance (t : Time) : Decidable t.valid := by
  unfold Time.valid; infer_instance

/-- `appendInt` of package `time` for a non-negative `x`: the decimal digits
of `x`, padded with zeros on the left to `width`. -/
def appendInt (x width : Nat) : List Char :=
  List.replicate (width - (Nat.toDigits 10 x).length) '0' ++ Nat.toDigits 10 x

/-- `t.Format("20060102150405")`: year (4), month, day, hour, minute, second (2 each). -/
def Time.Format (t : Time) : String :=
  String.mk (appendInt t.year 4 ++ appendInt t.month 2 ++ appendInt t.day 2 ++
    appendInt t.hour 2 ++ appendInt t.minute 2 ++ appendInt t.second 2)

/-! ## File system -/

/-- The part of the file system the program touches: the regular files (path
and content), and for each path whether `os.MkdirAll` or opening the path for
writing reports an error (missing parent directory, permissions, ...), with
the text of that error. -/
structure FileSystem where
  files : List (String × String)
  mkdirErr : String → Option String
  writeErr : String → Option String

/-- Content of the file at `path`, if there is one. -/
def FileSystem.read (fs : FileSystem) (path : String) : Option String :=
  fs.files.lookup path

/-- `os.MkdirAll(path, 0755)`. -/
def FileSystem.MkdirAll (fs : FileSystem) (path : String) : Except String FileSystem :=
  match fs.mkdirErr path with
  | some e => .error e
  | none => .ok fs

/-- `os.WriteFile(name, data, 0644)`: the file is opened with
`O_WRONLY|O_CREATE|O_TRUNC`, so it is created if necessary and an existing
file is truncated, then `data` is written. -/
def FileSystem.WriteFile (fs : FileSystem) (name data : String) : Except String FileSystem :=
  match fs.writeErr name with
  | some e => .error e
  | none =>
    .ok { files := (name, data) :: fs.files.filter (fun f => f.1 ≠ name),
          mkdirErr := fs.mkdirErr, writeErr := fs.writeErr }

/-! ## encoding/json -/

/-- Values handed to `json.MarshalIndent`: Go strings, ints, bools,
`[]map[string]interface{}` and `map[string]interface{}`. -/
inductive JSON where
  | str (s : String)
  | num (n : Int)
  | bool (b : Bool)
  | arr (elems : List JSON)
  | obj (fields : List (String × JSON))
  deriving Repr

/-- Order of map keys in `encoding/json`: byte-wise comparison of the keys,
which for UTF-8 is the lexicographic order of their characters. -/
def keyLess : List Char → List Char → Bool
  | _, [] => false
  | [], _ :: _ => true
  | a :: as, b :: bs => decide (a < b) || (decide (a = b) && keyLess as bs)

/-- Insert a map entry at its place in a list of entries sorted by key. -/
def insertField (f : String × JSON) : List (String × JSON) → List (String × JSON)
  | [] => [f]
  | g :: gs =>
    if keyLess g.1.data f.1.data = true then g :: insertField f gs else f :: g :: gs

mutual
/-- The order in which `encoding/json` writes a value: the entries of every map sorted by key. -/
def JSON.sortKeys : JSON → JSON
  | .str s => .str s
  | .num n => .num n
  | .bool b => .bool b
  | .arr es => .arr (sortKeysElems es)
  | .obj fs => .obj (sortKeysFields fs)
/-- Apply `sortKeys` to the elements of a slice. -/
def sortKeysElems : List JSON → List JSON
  | [] => []
  | e :: es => e.sortKeys :: sortKeysElems es
/-- Apply `sortKeys` to the values of a map and sort its entries. -/
def sortKeysFields : List (String × JSON) → List (String × JSON)
  | [] => []
  | (k, v) :: fs => insertField (k, v.sortKeys) (sortKeysFields fs)
end

/-- A line break followed by `depth` copies of the indent `"  "`. -/
def newline (depth : Nat) : String :=
  "\n" ++ String.join (List.replicate depth "  ")

mutual
/-- Indented text of a value at nesting `depth`, strings written by `q`. -/
def JSON.render (q : String → String) (depth : Nat) : JSON → String
  | .str s => q s
  | .num n => toString n
  | .bool b => if b then "true" else "false"
  | .arr [] => "[]"
  | .arr (e :: es) =>
    "[" ++ newline (depth + 1) ++ e.render q (depth + 1) ++ renderElems q (depth + 1) es ++
      newline depth ++ "]"
  | .obj [] => "\x7b\x7d"
  | .obj ((k, v) :: fs) =>
    "\x7b" ++ newline (depth + 1) ++ q k ++ ": " ++ v.render q (depth + 1) ++
      renderFields q (depth + 1) fs ++ newline depth ++ "\x7d"
/-- The elements of a slice after the first. -/
def renderElems (q : String → String) (depth : Nat) : List JSON → String
  | [] => ""
  | e :: es => "," ++ newline depth ++ e.render q depth ++ renderElems q depth es
/-- The entries of a map after the first. -/
def renderFields (q : String → String) (depth : Nat) : List (String × JSON) → String
  | [] => ""
  | (k, v) :: fs =>
    "," ++ newline depth ++ q k ++ ": " ++ v.render q depth ++ renderFields q depth fs
end

/-- `json.MarshalIndent(v, "", "  ")` for the values above, for which it returns no error. -/
def MarshalIndent (lib : Lib) (v : JSON) : String :=
  v.sortKeys.render lib.jsonString 0

/-! ## The migration engine as the program sees it -/

/-- Error values of `github.com/golang-migrate/migrate/v4` (and of its
drivers). `ErrNotExist` is an error that wraps `os.ErrNotExist` and carries
its text; `other` carries the text of any further error. -/
inductive MigrateErr where
  | ErrNoChange
  | ErrNilVersion
  | ErrInvalidVersion
  | ErrDirty (version : Int)
  | ErrNotExist (text : String)
  | other (text : String)
  deriving DecidableEq, Repr

/-- Text of an engine error (its `Error` method). -/
def MigrateErr.Error : MigrateErr → String
  | .ErrNoChange => "no change"
  | .ErrNilVersion => "no migration"
  | .ErrInvalidVersion => "version must be >= -1"
  | .ErrDirty v => "Dirty database version " ++ toString v ++ ". Fix and force version."
  | .ErrNotExist text => text
  | .other text => text

/-- The methods of `*migrate.Migrate` that the program calls, as functions of
the state `σ` behind the instance; `none` is a `nil` error. -/
structure Engine (σ : Type) where
  Up : σ → σ × Option MigrateErr
  Down : σ → σ × Option MigrateErr
  Migrate : Nat → σ → σ × Option MigrateErr
  Force : Int → σ → σ × Option MigrateErr
  Version : σ → Nat × Bool × Option MigrateErr

/-- One call of an engine method, with its argument. -/
inductive Call where
  | Up
  | Down
  | Migrate (version : Nat)
  | Force (version : Int)
  | Version
  deriving DecidableEq, Repr

/-- What a run of the program leaves behind. -/
structure Run (σ : Type) where
  /-- Process exit status. -/
  exit : Nat
  /-- Bytes written to standard output. -/
  stdout : String
  /-- Messages written to standard error, in order: those of package `log`
  without the date prefix and the final newline, and those of package `flag`. -/
  log : List String
  /-- Engine methods called, in order. -/
  calls : List Call
  /-- State behind the engine instance, once `migrate.New` has returned one. -/
  engine : Option σ
  /-- The file system. -/
  fs : FileSystem

/-- `printUsage`: the text written to standard output. -/
def printUsage : String :=
  "Usage: go run ./cmd/migrate/migrate.go <command> [options]\n" ++
  "\n" ++
  "Commands:\n" ++
  "  up                    Run all pending migrations\n" ++
  "  down                  Rollback the last migration\n" ++
  "  goto <version>        Migrate to specific version\n" ++
  "  force <version>       Force migration to specific version\n" ++
  "  create <name>         Create a new migration file\n" ++
  "  status                Show current migration status\n" ++
  "  version               Show current migration version\n" ++
  "\n" ++
  "Options:\n" ++
  "  -uri string           MongoDB connection URI (from .env)\n" ++
  "  --format string       Migration format: js or json (default: js)\n" ++
  "\n" ++
  "Required Environment Variables (.env file):\n" ++
  "  MONGO_URI             MongoDB connection URI\n" ++
  "  MIGRATIONS_PATH       Path to migration files\n" ++
  "\n" ++
  "Example .env file:\n" ++
  "  MONGO_URI=mongodb://localhost:27017/media_library\n" ++
  "  MIGRATIONS_PATH=deployments/mongo/migration\n" ++
  "\n" ++
  "Examples:\n" ++
  "  go run ./cmd/migrate/migrate.go up\n" ++
  "  go run ./cmd/migrate/migrate.go create add_users_collection\n" ++
  "  go run ./cmd/migrate/migrate.go create add_users_collection --format=json\n" ++
  "  go run ./cmd/migrate/migrate.go goto 2\n" ++
  "  go run ./cmd/migrate/migrate.go status\n" ++
  "  go run ./cmd/migrate/migrate.go down\n"

/-! ## The commands

In `main` the variable `err` of the function scope is declared at line 31 and
assigned for the last time by `m, err := migrate.New(...)` at line 65. The
commands receive its value as the argument `err`. An `err` declared in the
header of an `if` statement (`if err := m.Up(); ...`) is a different variable
whose scope is that statement only; it is named `err1` below. -/

/-- Lines 72-81 of `main`: `case "up"`. -/
def cmdUp {σ : Type} (E : Engine σ) (fs : FileSystem) (m : σ) (err : Option MigrateErr) :
    Run σ :=
  let res := E.Up m
  let err1 := res.2
  if err1 ≠ none ∧ err1 ≠ some .ErrNoChange then
    { exit := 1, stdout := "",
      log := ["Applying all up migrations...",
              "Failed to apply migrations: " ++ (err1.map MigrateErr.Error).getD ""],
      calls := [.Up], engine := some res.1, fs := fs }
  else if err = some .ErrNoChange then
    { exit := 0, stdout := "",
      log := ["Applying all up migrations...", "No new migrations to apply"],
      calls := [.Up], engine := some res.1, fs := fs }
  else
    { exit := 0, stdout := "",
      log := ["Applying all up migrations...", "Migrations applied successfully!"],
      calls := [.Up], engine := some res.1, fs := fs }

/-- Lines 83-92 of `main`: `case "down"`. -/
def cmdDown {σ : Type} (E : Engine σ) (fs : FileSystem) (m : σ) (err : Option MigrateErr) :
    Run σ :=
  let res := E.Down m
  let err1 := res.2
  if err1 ≠ none ∧ err1 ≠ some .ErrNoChange then
    { exit := 1, stdout := "",
      log := ["Rolling back one migration...",
              "Failed to rollback migration: " ++ (err1.map MigrateErr.Error).getD ""],
      calls := [.Down], engine := some res.1, fs := fs }
  else if err = some .ErrNoChange then
    { exit := 0, stdout := "",
      log := ["Rolling back one migration...", "No migrations to rollback"],
      calls := [.Down], engine := some res.1, fs := fs }
  else
    { exit := 0, stdout := "",
      log := ["Rolling back one migration...", "Migration rolled back successfully!"],
      calls := [.Down], engine := some res.1, fs := fs }

/-- Lines 94-107 of `main`: `case "goto"`; `args` is `os.Args`. -/
def cmdGoto {σ : Type} (lib : Lib) (E : Engine σ) (fs : FileSystem) (m : σ)
    (args : List String) : Run σ :=
  match args with
  | _ :: _ :: versionStr :: _ =>
    match ParseUint versionStr with
    | .error e =>
      { exit := 1, stdout := "",
        log := ["Invalid version number: " ++ e.Error lib "ParseUint" versionStr],
        calls := [], engine := some m, fs := fs }
    | .ok version =>
      let res := E.Migrate (toUint version) m
      let err1 := res.2
      if err1 ≠ none ∧ err1 ≠ some .ErrNoChange then
        { exit := 1, stdout := "",
          log := ["Migrating to version " ++ toString version ++ "...",
                  "Failed to migrate to version " ++ toString version ++ ": " ++
                    (err1.map MigrateErr.Error).getD ""],
          calls := [.Migrate (toUint version)], engine := some res.1, fs := fs }
      else
        { exit := 0, stdout := "",
          log := ["Migrating to version " ++ toString version ++ "...",
                  "Migration to specific version successful!"],
          calls := [.Migrate (toUint version)], engine := some res.1, fs := fs }
  | _ =>
    { exit := 1, stdout := "", log := ["Usage: go run ./cmd/migrate/migrate.go goto VERSION"],
      calls := [], engine := some m, fs := fs }

/-- Lines 109-122 of `main`: `case "force"`; `args` is `os.Args`. -/
def cmdForce {σ : Type} (lib : Lib) (E : Engine σ) (fs : FileSystem) (m : σ)
    (args : List String) : Run σ :=
  match args with
  | _ :: _ :: versionStr :: _ =>
    match ParseInt versionStr with
    | .error e =>
      { exit := 1, stdout := "",
        log := ["Invalid version number: " ++ e.Error lib "ParseInt" versionStr],
        calls := [], engine := some m, fs := fs }
    | .ok version =>
      let res := E.Force (toInt version) m
      match res.2 with
      | some e =>
        { exit := 1, stdout := "",
          log := ["Forcing migration to version " ++ toString version ++ "...",
                  "Failed to force migration to version " ++ toString version ++ ": " ++
                    e.Error],
          calls := [.Force (toInt version)], engine := some res.1, fs := fs }
      | none =>
        { exit := 0, stdout := "",
          log := ["Forcing migration to version " ++ toString version ++ "...",
                  "Migration forced to specific version successfully!"],
          calls := [.Force (toInt version)], engine := some res.1, fs := fs }
  | _ =>
    { exit := 1, stdout := "", log := ["Usage: go run ./cmd/migrate/migrate.go force VERSION"],
      calls := [], engine := some m, fs := fs }

/-- `checkMigrationStatus`. -/
def checkMigrationStatus {σ : Type} (E : Engine σ) (fs : FileSystem) (m : σ) : Run σ :=
  let res := E.Version m
  let version := res.1
  let dirty := res.2.1
  match res.2.2 with
  | some e =>
    if e = .ErrNilVersion then
      { exit := 0, stdout := "", log := ["No migrations have been applied yet"],
        calls := [.Version], engine := some m, fs := fs }
    else
      { exit := 1, stdout := "", log := ["Failed to get migration status: " ++ e.Error],
        calls := [.Version], engine := some m, fs := fs }
  | none =>
    { exit := 0, stdout := "",
      log := ["Current migration version: " ++ toString version,
              if dirty = true then "Database is in dirty state (migration failed)"
              else "Database is clean"],
      calls := [.Version], engine := some m, fs := fs }

/-- `getMigrationVersion`. -/
def getMigrationVersion {σ : Type} (E : Engine σ) (fs : FileSystem) (m : σ) : Run σ :=
  let res := E.Version m
  let version := res.1
  let dirty := res.2.1
  match res.2.2 with
  | some e =>
    if e = .ErrNilVersion then
      { exit := 0, stdout := "0\n", log := [],
        calls := [.Version], engine := some m, fs := fs }
    else
      { exit := 1, stdout := "", log := ["Failed to get migration version: " ++ e.Error],
        calls := [.Version], engine := some m, fs := fs }
  | none =>
    { exit := 0,
      stdout := toString version ++ (if dirty = true then " (dirty)\n" else ""),
      log := [], calls := [.Version], engine := some m, fs := fs }

/-! ## Scaffolding new migration files -/

/-- Text of the up file of a JavaScript migration (the raw string literal at lines 172-179). -/
def jsUpContent (name : String) : String :=
  "// Up migration for " ++ name ++ "\n" ++
  "// Add your MongoDB operations here\n" ++
  "// Example:\n" ++
  "// db.createCollection(\"collection_name\");\n" ++
  "// db.collection_name.createIndex(\x7b \"field\": 1 \x7d);\n" ++
  "// db.collection_name.insertOne(\x7b \"field\": \"value\" \x7d);\n" ++
  "\n"

/-- Text of the down file of a JavaScript migration (the raw string literal at lines 186-192). -/
def jsDownContent (name : String) : String :=
  "// Down migration for " ++ name ++ "\n" ++
  "// Add your rollback operations here\n" ++
  "// Example:\n" ++
  "// db.collection_name.drop();\n" ++
  "// db.collection_name.deleteOne(\x7b \"field\": \"value\" \x7d);\n" ++
  "\n"

/-- `createJavaScriptMigration`. -/
def createJavaScriptMigration {σ : Type} (fs : FileSystem) (m : σ)
    (filename name migrationsPath : String) : Run σ :=
  let upFile := migrationsPath ++ "/" ++ filename ++ ".up.js"
  let upContent := jsUpContent name
  match fs.WriteFile upFile upContent with
  | .error e =>
    { exit := 1, stdout := "", log := ["Failed to create up migration file: " ++ e],
      calls := [], engine := some m, fs := fs }
  | .ok fs1 =>
    let downFile := migrationsPath ++ "/" ++ filename ++ ".down.js"
    let downContent := jsDownContent name
    match fs1.WriteFile downFile downContent with
    | .error e =>
      { exit := 1, stdout := "", log := ["Failed to create down migration file: " ++ e],
        calls := [], engine := some m, fs := fs1 }
    | .ok fs2 =>
      { exit := 0, stdout := "",
        log := ["Created JavaScript migration files:\n  " ++ upFile ++ "\n  " ++ downFile],
        calls := [], engine := some m, fs := fs2 }

/-- The value `upContent` of `createJSONMigration` (lines 203-228). -/
def jsonUpContent (name : String) : JSON :=
  .obj [("operations", .arr [
    .obj [("comment", .str ("Up migration for " ++ name))],
    .obj [("createCollection", .str "example_collection")],
    .obj [("createIndex", .obj [
      ("collection", .str "example_collection"),
      ("index", .obj [("field", .num 1)]),
      ("options", .obj [("unique", .bool true)])])],
    .obj [("insertOne", .obj [
      ("collection", .str "example_collection"),
      ("document", .obj [
        ("field", .str "value"),
        ("created_at", .str "2024-01-01T00:00:00Z")])])]])]

/-- The value `downContent` of `createJSONMigration` (lines 241-256). -/
def jsonDownContent (name : String) : JSON :=
  .obj [("operations", .arr [
    .obj [("comment", .str ("Down migration for " ++ name))],
    .obj [("deleteOne", .obj [
      ("collection", .str "example_collection"),
      ("filter", .obj [("field", .str "value")])])],
    .obj [("dropCollection", .str "example_collection")]])]

/-- `createJSONMigration`. `json.MarshalIndent` returns no error for the two
values, so the two `log.Fatalf` calls after it are not reached. -/
def createJSONMigration {σ : Type} (lib : Lib) (fs : FileSystem) (m : σ)
    (filename name migrationsPath : String) : Run σ :=
  let upFile := migrationsPath ++ "/" ++ filename ++ ".up.json"
  let upJSON := MarshalIndent lib (jsonUpContent name)
  match fs.WriteFile upFile upJSON with
  | .error e =>
    { exit := 1, stdout := "", log := ["Failed to create up migration file: " ++ e],
      calls := [], engine := some m, fs := fs }
  | .ok fs1 =>
    let downFile := migrationsPath ++ "/" ++ filename ++ ".down.json"
    let downJSON := MarshalIndent lib (jsonDownContent name)
    match fs1.WriteFile downFile downJSON with
    | .error e =>
      { exit := 1, stdout := "", log := ["Failed to create down migration file: " ++ e],
        calls := [], engine := some m, fs := fs1 }
    | .ok fs2 =>
      { exit := 0, stdout := "",
        log := ["Created JSON migration files:\n  " ++ upFile ++ "\n  " ++ downFile],
        calls := [], engine := some m, fs := fs2 }

/-- `createMigration`; `env`, `now` and `fs` are the environment, the value
of `time.Now()` and the file system. -/
def createMigration {σ : Type} (lib : Lib) (env : Env) (now : Time) (fs : FileSystem) (m : σ)
    (name format : String) : Run σ :=
  let migrationsPath := env "DB_MIGRATION_PATH"
  match fs.MkdirAll migrationsPath with
  | .error e =>
    { exit := 1, stdout := "", log := ["Failed to create migrations directory: " ++ e],
      calls := [], engine := some m, fs := fs }
  | .ok fs0 =>
    let timestamp := now.Format
    let filename := timestamp ++ "_" ++ name
    if format = "js" then
      createJavaScriptMigration fs0 m filename name migrationsPath
    else if format = "json" then
      createJSONMigration lib fs0 m filename name migrationsPath
    else
      { exit := 1, stdout := "",
        log := ["Unsupported format: " ++ format ++ ". Use 'js' or 'json'"],
        calls := [], engine := some m, fs := fs0 }

/-! ## Package flag: the flag set of `create` -/

/-- What `parseOne` of package `flag` makes of one argument, for a flag set
whose only flag is the string flag `format`. -/
inductive FlagArg where
  | nonFlag
  | terminator
  | badSyntax
  | help
  | undefined (name : String)
  | format (value : Option String)

/-- Split the rest of a flag name at its first `=`. -/
def splitValue : List Char → List Char × Option (List Char)
  | [] => ([], none)
  | c :: cs =>
    if c = '=' then ([], some cs)
    else ((c :: (splitValue cs).1), (splitValue cs).2)

/-- Classification of one argument by `parseOne`: an argument shorter than 2
or not starting with `-` ends the flags, `--` ends them and is consumed, a
name that is empty or starts with `-` or `=` is bad syntax; the name runs to
the first `=` after its first character. -/
def classify (s : String) : FlagArg :=
  match s.data with
  | '-' :: c :: cs =>
    if c = '-' ∧ cs = [] then .terminator
    else
      match (if c = '-' then cs else c :: cs) with
      | [] => .badSyntax
      | n0 :: ns =>
        if n0 = '-' ∨ n0 = '=' then .badSyntax
        else
          let name := String.mk (n0 :: (splitValue ns).1)
          if name = "format" then .format ((splitValue ns).2.map String.mk)
          else if name = "help" ∨ name = "h" then .help
          else .undefined name
  | _ => .nonFlag

/-- Result of `formatFlag.Parse` under `flag.ExitOnError`. -/
inductive FlagResult where
  | parsed (format : String)
  | help
  | failed (message : String)
  deriving DecidableEq, Repr

/-- What `Parse` returns when `parseOne` stops at the argument `s`, if it does. -/
def flagStop (s : String) (format : String) : FlagArg → Option FlagResult
  | .nonFlag => some (.parsed format)
  | .terminator => some (.parsed format)
  | .badSyntax => some (.failed ("bad flag syntax: " ++ s))
  | .help => some .help
  | .undefined name => some (.failed ("flag provided but not defined: -" ++ name))
  | .format _ => none

/-- `formatFlag.Parse(arguments)`, `format` being the current value of the
flag: `parseOne` is repeated until an argument ends the flags or is in error;
a `format` flag without `=` takes the next argument as its value. -/
def flagParse : List String → String → FlagResult
  | [], format => .parsed format
  | [s], format =>
    match classify s with
    | .format (some value) => .parsed value
    | .format none => .failed "flag needs an argument: -format"
    | other => (flagStop s format other).getD (.parsed format)
  | s :: next :: rest, format =>
    match classify s with
    | .format (some value) => flagParse (next :: rest) value
    | .format none => flagParse rest next
    | other => (flagStop s format other).getD (.parsed format)

/-- Usage text of the flag set `create` (its `PrintDefaults`). -/
def flagUsage : String :=
  "Usage of create:\n  -format string\n    \tMigration format: js or json (default \"js\")"

/-! ## main -/

/-- Inputs of a run of the program. -/
structure World (σ : Type) where
  /-- Result of `godotenv.Load()`: an error text, or the process environment afterwards. -/
  dotenv : Except String Env
  /-- The argument vector `os.Args`. -/
  args : List String
  /-- Value of `time.Now()`. -/
  now : Time
  /-- The file system. -/
  fs : FileSystem
  /-- Result of `migrate.New(sourceURL, databaseURL)`: an error, or the state behind the new instance. -/
  connect : String → String → Except MigrateErr σ

/-- The slice `requiredEnvVars` of `main`. -/
def requiredEnvVars : List String :=
  ["DB_MIGRATION_PATH", "DB_ADMIN_USER", "DB_ADMIN_PASSWORD", "DB_HOST", "DB_PORT", "DB_NAME"]

/-- Lines 71-144 of `main`: the `switch` on the command, with the instance
`m` and the value `err` of the function-scope variable `err`. -/
def dispatch {σ : Type} (lib : Lib) (E : Engine σ) (env : Env) (w : World σ) (m : σ)
    (err : Option MigrateErr) (command : String) : Run σ :=
  if command = "up" then cmdUp E w.fs m err
  else if command = "down" then cmdDown E w.fs m err
  else if command = "goto" then cmdGoto lib E w.fs m w.args
  else if command = "force" then cmdForce lib E w.fs m w.args
  else if command = "create" then
    match w.args with
    | _ :: _ :: name :: flags =>
      match flagParse flags "js" with
      | .parsed format => createMigration lib env w.now w.fs m name format
      | .help =>
        { exit := 0, stdout := "", log := [flagUsage], calls := [], engine := some m, fs := w.fs }
      | .failed message =>
        { exit := 2, stdout := "", log := [message, flagUsage], calls := [], engine := some m,
          fs := w.fs }
    | _ =>
      { exit := 1, stdout := "",
        log := ["Usage: go run ./cmd/migrate/migrate.go create <migration_name> [--format=js|json]"],
        calls := [], engine := some m, fs := w.fs }
  else if command = "status" then checkMigrationStatus E w.fs m
  else if command = "version" then getMigrationVersion E w.fs m
  else
    { exit := 1, stdout := "Unknown command: " ++ command ++ "\n" ++ printUsage, log := [],
      calls := [], engine := some m, fs := w.fs }

/-- The function `main` of `cmd/migrate/migrate.go`. -/
def main {σ : Type} (lib : Lib) (E : Engine σ) (w : World σ) : Run σ :=
  match w.dotenv with
  | .error e =>
    { exit := 1, stdout := "", log := ["Failed to load .env file: " ++ e], calls := [],
      engine := none, fs := w.fs }
  | .ok env =>
    match w.args with
    | _ :: command :: _ =>
      match requiredEnvVars.find? (fun envVar => env envVar = "") with
      | some envVar =>
        { exit := 1, stdout := "",
          log := ["Required environment variable " ++ envVar ++ " is not set in .env file"],
          calls := [], engine := none, fs := w.fs }
      | none =>
        let migrationsPath := env "DB_MIGRATION_PATH"
        match w.connect ("file://" ++ migrationsPath) (mongoURI lib.QueryEscape env) with
        | .error e =>
          { exit := 1, stdout := "", log := ["Could not create migrate instance: " ++ e.Error],
            calls := [], engine := none, fs := w.fs }
        | .ok m =>
          -- `migrate.New` returned a nil error, which is the value `err` keeps from here on
          let err : Option MigrateErr := none
          dispatch lib E env w m err command
    | _ =>
      { exit := 1, stdout := printUsage, log := [], calls := [], engine := none, fs := w.fs }

/-! ## The engine: `github.com/golang-migrate/migrate/v4`

The behaviour of the imported library, as its documentation and `migrate.go`
give it, over a source that holds an up and a down body for every version
and a database driver whose own operations succeed. -/

/-- Direction of a migration body. -/
inductive Direction where
  | up
  | down
  deriving DecidableEq, Repr

/-- The migration source: the versions found in the migrations directory in
ascending order, and the bodies that fail when they are run. The texts of the
errors depend on the version of the library and of its drivers and are
inputs: `notFound what` is the text of the error wrapping `os.ErrNotExist`
that is returned when `what` is not in the source, `runError` the text of the
database driver's error for a failing body. -/
structure Source where
  versions : List Nat
  failing : List (Direction × Nat)
  notFound : String → String
  runError : Direction → Nat → String

/-- The database: the stored version (`database.NilVersion = -1` when none
is stored), the dirty flag, and the bodies handed to the database so far. -/
structure Database where
  version : Int
  dirty : Bool
  executed : List (Direction × Nat)
  deriving DecidableEq, Repr

/-- State behind a `*migrate.Migrate`: its source and database drivers. -/
structure Migrate where
  source : Source
  db : Database

/-- One migration to run: the body `(direction, version)` and the version stored after it. -/
structure Step where
  direction : Direction
  version : Nat
  target : Int
  deriving DecidableEq, Repr

/-- `sourceDrv.Prev`: the version before `version`, `-1` when it is the first. -/
def Source.prev (src : Source) (version : Nat) : Int :=
  match (src.versions.filter (fun (v : Nat) => v < version)).getLast? with
  | some p => (p : Int)
  | none => -1

/-- `runMigrations`: for each migration the target version is stored with
`dirty = true`, the body is run, and on success the target version is stored
with `dirty = false`; the first failing body ends the run. -/
def runMigrations (src : Source) : List Step → Database → Database × Option MigrateErr
  | [], db => (db, none)
  | st :: rest, db =>
    if (st.direction, st.version) ∈ src.failing then
      ({ version := st.target, dirty := true,
         executed := db.executed ++ [(st.direction, st.version)] },
       some (.other (src.runError st.direction st.version)))
    else
      runMigrations src rest
        { version := st.target, dirty := false,
          executed := db.executed ++ [(st.direction, st.version)] }

/-- Up migrations for the versions above `cur` up to `upTo`, ascending; no upper end when `upTo` is `none`. -/
def upSteps (src : Source) (cur : Int) (upTo : Option Nat) : List Step :=
  (src.versions.filter (fun (v : Nat) => cur < (v : Int) ∧ ∀ t ∈ upTo, v ≤ t)).map
    (fun v => { direction := .up, version := v, target := (v : Int) })

/-- Down migrations for the versions from `cur` down to just above `downTo`, descending; each leaves the previous version. -/
def downSteps (src : Source) (cur : Int) (downTo : Int) : List Step :=
  ((src.versions.filter (fun (v : Nat) => downTo < (v : Int) ∧ (v : Int) ≤ cur)).reverse).map
    (fun v => { direction := .down, version := v, target := src.prev v })

/-- Whether the stored version, if any, is unknown to the source (`versionExists`). -/
def versionMissing (m : Migrate) : Prop :=
  0 ≤ m.db.version ∧ m.db.version.toNat ∉ m.source.versions

instance (m : Migrate) : Decidable (versionMissing m) := by
  unfold versionMissing; infer_instance

/-- The error of `versionExists` for the stored version. -/
def versionMissingErr (m : Migrate) : MigrateErr :=
  .ErrNotExist (m.source.notFound ("version " ++ toString m.db.version))

/-- `Migrate.Up`: "looks at the currently active migration version and will
migrate all the way up (applying all up migrations)". -/
def Migrate.Up (m : Migrate) : Migrate × Option MigrateErr :=
  if m.db.dirty = true then (m, some (.ErrDirty m.db.version))
  else if versionMissing m then (m, some (versionMissingErr m))
  else if upSteps m.source m.db.version none = [] then
    (m, some (if m.db.version = -1 then .ErrNotExist (m.source.notFound "first")
              else .ErrNoChange))
  else
    let res := runMigrations m.source (upSteps m.source m.db.version none) m.db
    ({ source := m.source, db := res.1 }, res.2)

/-- `Migrate.Down`: "looks at the currently active migration version and
will migrate all the way down (applying all down migrations)". -/
def Migrate.Down (m : Migrate) : Migrate × Option MigrateErr :=
  if m.db.dirty = true then (m, some (.ErrDirty m.db.version))
  else if versionMissing m then (m, some (versionMissingErr m))
  else if m.db.version = -1 then (m, some .ErrNoChange)
  else
    let res := runMigrations m.source (downSteps m.source m.db.version (-1)) m.db
    ({ source := m.source, db := res.1 }, res.2)

/-- `Migrate.Migrate(version)`: "looks at the currently active migration
version, then migrates either up or down to the specified version". The
library reads the migrations from the stored version to `int(version)`
(`read(curVersion, int(version), ret)`), so a `version` of `2^63` or more is
a negative target:

* a target that is not negative has to be in the source;
* equal versions give `ErrNoChange`;
* upwards, the up migrations above the stored version up to the target run;
* downwards to a target of `-1` or more, the down migrations from the stored
  version down to just above the target run (the last one leaves no version
  stored when the target is `-1`);
* downwards to a target below `-1`, the down migrations run until the first
  version of the source is the stored one; looking up its predecessor then
  fails, and that error is returned. With no version stored nothing is read
  and nil is returned. -/
def Migrate.migrateTo (version : Nat) (m : Migrate) : Migrate × Option MigrateErr :=
  let target : Int := toInt (version : Int)
  if m.db.dirty = true then (m, some (.ErrDirty m.db.version))
  else if versionMissing m then (m, some (versionMissingErr m))
  else if 0 ≤ target ∧ target.toNat ∉ m.source.versions then
    (m, some (.ErrNotExist (m.source.notFound ("version " ++ toString target))))
  else if m.db.version = target then (m, some .ErrNoChange)
  else if m.db.version < target then
    let res := runMigrations m.source (upSteps m.source m.db.version (some target.toNat)) m.db
    ({ source := m.source, db := res.1 }, res.2)
  else if -1 ≤ target then
    let res := runMigrations m.source (downSteps m.source m.db.version target) m.db
    ({ source := m.source, db := res.1 }, res.2)
  else
    let steps := downSteps m.source m.db.version (-1)
    let res := runMigrations m.source (steps.filter (fun st => st.target ≠ -1)) m.db
    match res.2, steps.getLast? with
    | none, some st =>
      ({ source := m.source, db := res.1 },
       some (.ErrNotExist (m.source.notFound ("prev for version " ++ toString st.version))))
    | err, _ => ({ source := m.source, db := res.1 }, err)

/-- `Migrate.Force(version)`: "sets a migration version. It does not check
any currently active version in database. It resets the dirty state to
false." A version below `-1` is refused with `ErrInvalidVersion`. -/
def Migrate.Force (version : Int) (m : Migrate) : Migrate × Option MigrateErr :=
  if version < -1 then (m, some .ErrInvalidVersion)
  else
    ({ source := m.source,
       db := { version := version, dirty := false, executed := m.db.executed } }, none)

/-- `Migrate.Version`: "returns the currently active migration version. If no
migration has been applied, yet, it will return ErrNilVersion." -/
def Migrate.Version (m : Migrate) : Nat × Bool × Option MigrateErr :=
  if m.db.version = -1 then (0, false, some .ErrNilVersion)
  else (m.db.version.toNat, m.db.dirty, none)

/-- The library as an `Engine`. -/
def golangMigrate : Engine Migrate where
  Up := Migrate.Up
  Down := Migrate.Down
  Migrate := Migrate.migrateTo
  Force := Migrate.Force
  Version := Migrate.Version

/-! ## Notions used by the statements -/

/-- The run gets as far as the `switch` of `main`: `godotenv.Load` gives the
environment `env`, every required variable is set in it, and `migrate.New`
returns the instance `m` for the source and database URLs built from it. -/
def Ready {σ : Type} (lib : Lib) (w : World σ) (env : Env) (m : σ) : Prop :=
  w.dotenv = .ok env ∧ (∀ envVar ∈ requiredEnvVars, env envVar ≠ "") ∧
    w.connect ("file://" ++ env "DB_MIGRATION_PATH") (mongoURI lib.QueryEscape env) = .ok m

/-- Value of a string of decimal digits, most significant digit first. -/
def decimalValue (cs : List Char) : Nat :=
  cs.foldl (fun n c => 10 * n + (c.toNat - '0'.toNat)) 0

/-- The string `s` is a base-10 unsigned integer representable in 64 bits, of
value `n`: one or more decimal digits and nothing else, with value below `2^64`. -/
def IsUint64 (s : String) (n : Nat) : Prop :=
  s.data ≠ [] ∧ (∀ c ∈ s.data, '0' ≤ c ∧ c ≤ '9') ∧ decimalValue s.data = n ∧ n < 2 ^ 64

/-- The text `s` without its trailing white space. -/
def trimTrailing (s : String) : String :=
  String.mk (s.data.reverse.dropWhile Char.isWhitespace).reverse

/-- The text a run writes to standard error through package `log`, one line per message. -/
def stderrText {σ : Type} (r : Run σ) : String :=
  String.join (r.log.map (fun line => line ++ "\n"))

/-- The common prefix `<dir>/<timestamp>_<name>` of the two paths of a scaffold. -/
def scaffoldPrefix (env : Env) (now : Time) (name : String) : String :=
  env "DB_MIGRATION_PATH" ++ "/" ++ now.Format ++ "_" ++ name

/-- Content of the up file of a scaffold in the given format. -/
def upText (lib : Lib) (name format : String) : String :=
  if format = "js" then jsUpContent name else MarshalIndent lib (jsonUpContent name)

/-- Content of the down file of a scaffold in the given format. -/
def downText (lib : Lib) (name format : String) : String :=
  if format = "js" then jsDownContent name else MarshalIndent lib (jsonDownContent name)

/-- Entries of a JSON object (none for any other value). -/
def JSON.fields : JSON → List (String × JSON)
  | .obj fs => fs
  | _ => []

/-- Keys of a JSON object, in order. -/
def JSON.keys (v : JSON) : List String :=
  v.fields.map Prod.fst

/-- Value under `key` in a JSON object. -/
def JSON.get (v : JSON) (key : String) : Option JSON :=
  v.fields.lookup key

/-- Elements of a JSON array (none for any other value). -/
def JSON.elems : JSON → List JSON
  | .arr es => es
  | _ => []

/-- The list under the key `operations` of a migration document. -/
def operations (doc : JSON) : List JSON :=
  match doc.get "operations" with
  | some v => v.elems
  | none => []

/-- For each step of a migration document, the keys of the step. -/
def stepKeys (doc : JSON) : List (List String) :=
  (operations doc).map JSON.keys

/-- Parameters of the first step named `opName` of a migration document. -/
def stepParams (doc : JSON) (opName : String) : Option JSON :=
  ((operations doc).filterMap (fun step => step.get opName)).head?

/-- The operation names of the declarative format. -/
def opNames : List String :=
  ["comment", "createCollection", "dropCollection", "createIndex", "insertOne", "deleteOne"]

/-- A document matches an equality filter: every entry of the filter is an entry of the document. -/
def matchesFilter (document filter : JSON) : Prop :=
  ∀ entry ∈ filter.fields, document.get entry.1 = some entry.2

/-! ## Sample inputs -/

/-- A library whose pass-through functions leave a string as it is, except
that the JSON encoder puts it between double quotes. -/
def sampleLib : Lib where
  QueryEscape := fun s => s
  Quote := fun s => s
  jsonString := fun s => "\"" ++ s ++ "\""

/-- An environment with every required variable set and TLS switched off. -/
def sampleEnv : Env := fun key =>
  if key = "DB_MIGRATION_PATH" then "deployments/mongo/migration"
  else if key = "DB_ADMIN_USER" then "admin"
  else if key = "DB_ADMIN_PASSWORD" then "secret"
  else if key = "DB_HOST" then "localhost"
  else if key = "DB_PORT" then "27017"
  else if key = "DB_NAME" then "media_library"
  else ""

/-- A file system with the given files on which no operation fails. -/
def sampleFS (files : List (String × String)) : FileSystem where
  files := files
  mkdirErr := fun _ => none
  writeErr := fun _ => none

/-- A wall-clock time: 2026-11-01 09:05:03. -/
def sampleTime : Time :=
  { year := 2026, month := 11, day := 1, hour := 9, minute := 5, second := 3 }

/-- A source with the migrations 1 and 2, none of which fails. -/
def sampleSource : Source where
  versions := [1, 2]
  failing := []
  notFound := fun what => what ++ ": file does not exist"
  runError := fun _ version => "migration " ++ toString version ++ " failed"

/-- A database holding `version` and `dirty` to which no body has been handed yet. -/
def sampleDb (version : Int) (dirty : Bool) : Database :=
  { version := version, dirty := dirty, executed := [] }

/-- An instance of the library engine over `sampleSource` and the database `db`. -/
def sampleMigrate (db : Database) : Migrate :=
  { source := sampleSource, db := db }

/-- A run of the program with arguments `args` against the library engine,
the database holding `db`, the source being `sampleSource`. -/
def sampleWorld (args : List String) (db : Database) : World Migrate where
  dotenv := .ok sampleEnv
  args := args
  now := sampleTime
  fs := sampleFS []
  connect := fun _ _ => .ok (sampleMigrate db)

/-- A file system on which no operation fails and in which the up file that
`create add_users` writes at `sampleTime` already exists, with content `old`. -/
def sampleExistingFS : FileSystem :=
  sampleFS [("deployments/mongo/migration/20261101090503_add_users.up.js", "old")]

/-- The text of the up file of a json scaffold, line by line; `lib.jsonString`
writes the keys and the string values. -/
def jsonUpText (lib : Lib) (name : String) : String :=
  "\x7b\n" ++
  "  " ++ lib.jsonString "operations" ++ ": [\n" ++
  "    \x7b\n" ++
  "      " ++ lib.jsonString "comment" ++ ": " ++
    lib.jsonString ("Up migration for " ++ name) ++ "\n" ++
  "    \x7d,\n" ++
  "    \x7b\n" ++
  "      " ++ lib.jsonString "createCollection" ++ ": " ++
    lib.jsonString "example_collection" ++ "\n" ++
  "    \x7d,\n" ++
  "    \x7b\n" ++
  "      " ++ lib.jsonString "createIndex" ++ ": \x7b\n" ++
  "        " ++ lib.jsonString "collection" ++ ": " ++
    lib.jsonString "example_collection" ++ ",\n" ++
  "        " ++ lib.jsonString "index" ++ ": \x7b\n" ++
  "          " ++ lib.jsonString "field" ++ ": 1\n" ++
  "        \x7d,\n" ++
  "        " ++ lib.jsonString "options" ++ ": \x7b\n" ++
  "          " ++ lib.jsonString "unique" ++ ": true\n" ++
  "        \x7d\n" ++
  "      \x7d\n" ++
  "    \x7d,\n" ++
  "    \x7b\n" ++
  "      " ++ lib.jsonString "insertOne" ++ ": \x7b\n" ++
  "        " ++ lib.jsonString "collection" ++ ": " ++
    lib.jsonString "example_collection" ++ ",\n" ++
  "        " ++ lib.jsonString "document" ++ ": \x7b\n" ++
  "          " ++ lib.jsonString "created_at" ++ ": " ++
    lib.jsonString "2024-01-01T00:00:00Z" ++ ",\n" ++
  "          " ++ lib.jsonString "field" ++ ": " ++ lib.jsonString "value" ++ "\n" ++
  "        \x7d\n" ++
  "      \x7d\n" ++
  "    \x7d\n" ++
  "  ]\n" ++
  "\x7d"

/-- The text of the down file of a json scaffold, line by line. -/
def jsonDownText (lib : Lib) (name : String) : String :=
  "\x7b\n" ++
  "  " ++ lib.jsonString "operations" ++ ": [\n" ++
  "    \x7b\n" ++
  "      " ++ lib.jsonString "comment" ++ ": " ++
    lib.jsonString ("Down migration for " ++ name) ++ "\n" ++
  "    \x7d,\n" ++
  "    \x7b\n" ++
  "      " ++ lib.jsonString "deleteOne" ++ ": \x7b\n" ++
  "        " ++ lib.jsonString "collection" ++ ": " ++
    lib.jsonString "example_collection" ++ ",\n" ++
  "        " ++ lib.jsonString "filter" ++ ": \x7b\n" ++
  "          " ++ lib.jsonString "field" ++ ": " ++ lib.jsonString "value" ++ "\n" ++
  "        \x7d\n" ++
  "      \x7d\n" ++
  "    \x7d,\n" ++
  "    \x7b\n" ++
  "      " ++ lib.jsonString "dropCollection" ++ ": " ++
    lib.jsonString "example_collection" ++ "\n" ++
  "    \x7d\n" ++
  "  ]\n" ++
  "\x7d"

/-! ## Connection string: the TLS option -/

theorem tlsTrue_ne_tlsFalse (ca : String) : "tls=true&tlsCAFile=" ++ ca ≠ "tls=false" := by
  intro h
  have h2 := congrArg String.data h
  simp at h2

/-- C10: the TLS part of the connection URI is `tls=true&tlsCAFile=<DB_TLS_CA_FILE>`
exactly when `DB_TLS_ENABLED` parses as true and `DB_TLS_CA_FILE` is not empty,
and is `tls=false` in every other case; the URI ends with this option. -/
theorem tlsOpt_decided (env : Env) :
    (tlsOpt env = "tls=true&tlsCAFile=" ++ env "DB_TLS_CA_FILE" ↔
      (ParseBool (env "DB_TLS_ENABLED") = .ok true ∧ env "DB_TLS_CA_FILE" ≠ "")) ∧
    (¬ (ParseBool (env "DB_TLS_ENABLED") = .ok true ∧ env "DB_TLS_CA_FILE" ≠ "") →
      tlsOpt env = "tls=false") ∧
    (∀ queryEscape : String → String, ∃ front : String,
      mongoURI queryEscape env = front ++ "&" ++ tlsOpt env) := by
  refine ⟨?_, ?_, ?_⟩
  · unfold tlsOpt
    cases hp : ParseBool (env "DB_TLS_ENABLED") with
    | error e => simp [(tlsTrue_ne_tlsFalse _).symm]
    | ok b =>
      cases b with
      | false => simp [(tlsTrue_ne_tlsFalse _).symm]
      | true =>
        by_cases hca : env "DB_TLS_CA_FILE" = ""
        · simp [hca]
        · simp [hca]
  · intro h
    unfold tlsOpt
    cases hp : ParseBool (env "DB_TLS_ENABLED") with
    | error e => simp
    | ok b =>
      cases b with
      | false => simp
      | true =>
        have hca : env "DB_TLS_CA_FILE" = "" := by
          by_contra hne
          exact h ⟨hp, hne⟩
        simp [hca]
  · intro q
    refine ⟨"mongodb://" ++ q (env "DB_ADMIN_USER") ++ ":" ++
      q (env "DB_ADMIN_PASSWORD") ++ "@" ++ env "DB_HOST" ++ ":" ++
      env "DB_PORT" ++ "/" ++ env "DB_NAME" ++
      "?authSource=admin&replicaSet=rs0&readPreference=secondaryPreferred&retryWrites=false", ?_⟩
    simp [mongoURI, String.append_assoc]

/-! ## strconv.ParseUint against the decimal reading of its argument -/

theorem foldl_decimal_ge (cs : List Char) (a : Nat) :
    a ≤ cs.foldl (fun n c => 10 * n + (c.toNat - '0'.toNat)) a := by
  induction cs generalizing a with
  | nil => simp
  | cons c cs ih =>
    simp only [List.foldl_cons]
    have := ih (10 * a + (c.toNat - '0'.toNat))
    omega

theorem digit_offset_le (c : Char) (h : '0' ≤ c ∧ c ≤ '9') : c.toNat - '0'.toNat ≤ 9 := by
  have h2 : c.toNat ≤ '9'.toNat := h.2
  have h3 : '9'.toNat = 57 := by decide
  have h4 : '0'.toNat = 48 := by decide
  omega

theorem parseUintLoop_ok_iff (cs : List Char) (acc n : Nat) (hacc : acc < 2 ^ 64) :
    parseUintLoop cs acc = .ok n ↔
      ((∀ c ∈ cs, '0' ≤ c ∧ c ≤ '9') ∧
        cs.foldl (fun n c => 10 * n + (c.toNat - '0'.toNat)) acc = n ∧ n < 2 ^ 64) := by
  induction cs generalizing acc with
  | nil =>
    simp only [parseUintLoop, List.foldl_nil, List.not_mem_nil, false_implies, implies_true,
      true_and, Except.ok.injEq]
    constructor
    · intro h; subst h; exact ⟨rfl, hacc⟩
    · intro h; exact h.1
  | cons c cs ih =>
    unfold parseUintLoop
    by_cases hd : '0' ≤ c ∧ c ≤ '9'
    · have hd9 := digit_offset_le c hd
      have hge := foldl_decimal_ge cs (10 * acc + (c.toNat - '0'.toNat))
      simp only [hd, and_self, if_true, List.foldl_cons, List.mem_cons, forall_eq_or_imp, true_and]
      by_cases hc : acc ≥ cutoff
      · simp only [hc, if_true]
        constructor
        · intro h; cases h
        · rintro ⟨_, h1, h2⟩
          exfalso
          simp only [cutoff, maxVal] at hc
          norm_num at hc h2
          omega
      · simp only [hc, if_false]
        simp only [cutoff, maxVal] at hc
        norm_num at hc hacc
        by_cases hov : 10 * acc + (c.toNat - '0'.toNat) < 2 ^ 64
        · have e1 : acc * 10 % 2 ^ 64 = acc * 10 := Nat.mod_eq_of_lt (by norm_num; omega)
          have e2 : (acc * 10 + (c.toNat - '0'.toNat)) % 2 ^ 64 =
              10 * acc + (c.toNat - '0'.toNat) := by
            rw [Nat.mod_eq_of_lt (by norm_num at hov ⊢; omega)]; omega
          have hno : ¬ (10 * acc + (c.toNat - '0'.toNat) < acc * 10 ∨
              10 * acc + (c.toNat - '0'.toNat) > maxVal) := by
            simp only [maxVal]; norm_num at hov ⊢; omega
          simp only [e1, e2, hno, if_false]
          exact ih _ hov
        · have hbad : (acc * 10 % 2 ^ 64 + (c.toNat - '0'.toNat)) % 2 ^ 64 < acc * 10 % 2 ^ 64 ∨
              (acc * 10 % 2 ^ 64 + (c.toNat - '0'.toNat)) % 2 ^ 64 > maxVal := by
            left
            norm_num at hov ⊢
            omega
          simp only [hbad, if_true]
          constructor
          · intro h; cases h
          · rintro ⟨_, h1, h2⟩
            exfalso
            norm_num at hov h2
            omega
    · simp only [hd, if_false, List.mem_cons, forall_eq_or_imp]
      constructor
      · intro h; cases h
      · rintro ⟨⟨h, _⟩, _⟩; exact h.elim

theorem ParseUint_ok_iff (s : String) (n : Nat) : ParseUint s = .ok n ↔ IsUint64 s n := by
  unfold ParseUint IsUint64 decimalValue
  by_cases hs : s = ""
  · subst hs
    simp
  · have hne : s.data ≠ [] := by
      intro h
      apply hs
      exact String.ext h
    simp only [hs, if_false, ne_eq, hne, not_false_eq_true, true_and]
    exact parseUintLoop_ok_iff s.data 0 n (by norm_num)

/-! ## From `main` to the commands -/

theorem find_required_none (env : Env) (h : ∀ envVar ∈ requiredEnvVars, env envVar ≠ "") :
    requiredEnvVars.find? (fun envVar => decide (env envVar = "")) = none := by
  rw [List.find?_eq_none]
  intro x hx
  simpa using h x hx

theorem main_of_ready {σ : Type} (lib : Lib) (E : Engine σ) (w : World σ) (env : Env) (m : σ)
    (prog command : String) (rest : List String) (hready : Ready lib w env m)
    (hargs : w.args = prog :: command :: rest) :
    main lib E w = dispatch lib E env w m none command := by
  obtain ⟨h1, h2, h3⟩ := hready
  unfold main
  simp only [h1, hargs, find_required_none env h2, h3]

theorem sampleWorld_ready (args : List String) (db : Database) :
    Ready sampleLib (sampleWorld args db) sampleEnv (sampleMigrate db) := by
  refine ⟨rfl, ?_, rfl⟩
  decide

/-! ## The command `up` -/

/-- C2: when the engine's `Up` returns `ErrNoChange`, the `up` command ends
with exit status 0, but the message it logs is "Migrations applied
successfully!" and not "No new migrations to apply": the comparison at line
77 reads the `err` of the function scope, which is nil, and not the `err`
declared by the `if` statement at line 74. -/
theorem up_no_change_logs_applied {σ : Type} (lib : Lib) (E : Engine σ) (w : World σ)
    (env : Env) (m : σ) (prog : String) (rest : List String) (hready : Ready lib w env m)
    (hargs : w.args = prog :: "up" :: rest) (hup : (E.Up m).2 = some .ErrNoChange) :
    (main lib E w).exit = 0 ∧ (main lib E w).calls = [.Up] ∧
      (main lib E w).log = ["Applying all up migrations...", "Migrations applied successfully!"] ∧
      "No new migrations to apply" ∉ (main lib E w).log := by
  rw [main_of_ready lib E w env m prog "up" rest hready hargs]
  simp [dispatch, cmdUp, hup]

/-- Witness of `up_no_change_logs_applied`: with the migrations 1 and 2 and
the database clean at version 2, `Up` of the library returns `ErrNoChange`
and `up` logs "Migrations applied successfully!". -/
theorem up_no_change_logs_applied_witness :
    (golangMigrate.Up (sampleMigrate (sampleDb 2 false))).2 = some .ErrNoChange ∧
    (main sampleLib golangMigrate (sampleWorld ["migrate", "up"] (sampleDb 2 false))).log =
      ["Applying all up migrations...", "Migrations applied successfully!"] :=
  ⟨by decide,
   (up_no_change_logs_applied sampleLib golangMigrate
      (sampleWorld ["migrate", "up"] (sampleDb 2 false)) sampleEnv
      (sampleMigrate (sampleDb 2 false)) "migrate" [] (sampleWorld_ready _ _) rfl
      (by decide)).2.2.1⟩

/-! ## The command `down` -/

theorem runMigrations_no_failure (src : Source) (hf : src.failing = []) :
    ∀ (steps : List Step) (db : Database),
      runMigrations src steps db =
        ((match steps.getLast? with
          | none => db
          | some st =>
            { version := st.target, dirty := false,
              executed := db.executed ++ steps.map (fun st => (st.direction, st.version)) }),
         none) := by
  intro steps
  induction steps with
  | nil => intro db; rfl
  | cons st rest ih =>
    intro db
    unfold runMigrations
    simp only [hf, List.not_mem_nil, if_false]
    rw [ih]
    cases rest with
    | nil => rfl
    | cons st2 rest2 =>
      have hl : (st2 :: rest2).getLast? = some ((st2 :: rest2).getLast (by simp)) :=
        List.getLast?_eq_getLast _ _
      simp [List.getLast?_cons_cons, hl]

theorem prev_of_least (src : Source) (hsorted : src.versions.Pairwise (· < ·)) (v h : Nat)
    (hhead : (src.versions.filter
      (fun (u : Nat) => (-1 : Int) < (u : Int) ∧ (u : Int) ≤ (v : Int))).head? = some h) :
    src.prev h = -1 := by
  unfold Source.prev
  have hempty : src.versions.filter (fun (u : Nat) => u < h) = [] := by
    rw [List.filter_eq_nil_iff]
    intro x hx
    simp only [decide_eq_true_eq, not_lt]
    by_contra hlt
    push_neg at hlt
    have hF := (hsorted.sublist (List.filter_sublist (l := src.versions)
      (p := fun (u : Nat) => decide ((-1 : Int) < (u : Int) ∧ (u : Int) ≤ (v : Int)))))
    cases hfl : src.versions.filter
        (fun (u : Nat) => (-1 : Int) < (u : Int) ∧ (u : Int) ≤ (v : Int)) with
    | nil => rw [hfl] at hhead; cases hhead
    | cons a as =>
      rw [hfl] at hhead hF
      simp only [List.head?_cons, Option.some.injEq] at hhead
      subst hhead
      have hamem : a ∈ src.versions.filter
          (fun (u : Nat) => (-1 : Int) < (u : Int) ∧ (u : Int) ≤ (v : Int)) := by
        rw [hfl]; exact List.mem_cons_self _ _
      have hav : (a : Int) ≤ v := by
        have := (List.mem_filter.1 hamem).2
        simp only [decide_eq_true_eq] at this
        exact this.2
      have hxF : x ∈ src.versions.filter
          (fun (u : Nat) => (-1 : Int) < (u : Int) ∧ (u : Int) ≤ (v : Int)) := by
        rw [List.mem_filter]
        refine ⟨hx, ?_⟩
        simp only [decide_eq_true_eq]
        omega
      rw [hfl] at hxF
      rcases List.mem_cons.1 hxF with h1 | h1
      · omega
      · have := (List.pairwise_cons.1 hF).1 x h1
        omega
  rw [hempty]
  rfl

theorem applied_filter (src : Source) (v : Nat) :
    src.versions.filter (fun (u : Nat) => (-1 : Int) < (u : Int) ∧ (u : Int) ≤ (v : Int)) =
      src.versions.filter (fun (u : Nat) => u ≤ v) := by
  apply List.filter_congr
  intro x _
  simp only [decide_eq_decide]
  omega

theorem Down_all_the_way (m : Migrate) (v : Nat)
    (hsorted : m.source.versions.Pairwise (· < ·)) (hnofail : m.source.failing = [])
    (hclean : m.db.dirty = false) (hv : m.db.version = (v : Int)) (hmem : v ∈ m.source.versions) :
    Migrate.Down m =
      ({ source := m.source,
         db := { version := -1, dirty := false,
                 executed := m.db.executed ++
                   ((m.source.versions.filter (fun (u : Nat) => u ≤ v)).reverse.map
                     (fun u => (Direction.down, u))) } }, none) := by
  have hnm : ¬ versionMissing m := by
    unfold versionMissing
    rw [hv]
    simp [hmem]
  have hne : ¬ ((v : Int) = -1) := by omega
  unfold Migrate.Down
  simp only [hclean, hnm, hv, hne, if_false, Bool.false_eq_true]
  rw [runMigrations_no_failure m.source hnofail]
  have hvF : v ∈ m.source.versions.filter
      (fun (u : Nat) => (-1 : Int) < (u : Int) ∧ (u : Int) ≤ (v : Int)) := by
    rw [List.mem_filter]
    refine ⟨hmem, ?_⟩
    simp only [decide_eq_true_eq]
    omega
  cases hF : m.source.versions.filter
      (fun (u : Nat) => (-1 : Int) < (u : Int) ∧ (u : Int) ≤ (v : Int)) with
  | nil => rw [hF] at hvF; cases hvF
  | cons a as =>
    have hprev : m.source.prev a = -1 :=
      prev_of_least m.source hsorted v a (by rw [hF]; rfl)
    have hlast : (downSteps m.source (v : Int) (-1)).getLast? =
        some { direction := .down, version := a, target := -1 } := by
      unfold downSteps
      rw [hF, List.getLast?_map, List.getLast?_reverse]
      simp [hprev]
    have hmap : (downSteps m.source (v : Int) (-1)).map (fun st => (st.direction, st.version)) =
        (m.source.versions.filter (fun (u : Nat) => u ≤ v)).reverse.map
          (fun u => (Direction.down, u)) := by
      unfold downSteps
      rw [applied_filter, List.map_map]
      rfl
    simp only [hlast, hmap]

/-- The `down` command calls exactly one engine method, `Down`, whatever the
engine and its state, and leaves the engine in the state `Down` returns. -/
theorem cmdDown_calls_Down {σ : Type} (E : Engine σ) (fs : FileSystem) (m : σ)
    (err : Option MigrateErr) :
    (cmdDown E fs m err).calls = [.Down] ∧ (cmdDown E fs m err).engine = some (E.Down m).1 := by
  unfold cmdDown
  dsimp only
  split_ifs <;> exact ⟨rfl, rfl⟩

/-- C1: for every source with its versions in ascending order and without a
failing body, and every database clean at a version `v` of the source, the
`down` command calls `Down` of the library once, which runs the down body of
every version up to `v`, from `v` downwards, and leaves no version stored
(`NilVersion`); the command logs "Rolling back one migration..." and ends
with exit status 0. With two or more migrations applied the run therefore
executes two or more down bodies and does not stop at the version before `v`. -/
theorem down_rolls_back_everything (lib : Lib) (w : World Migrate) (env : Env) (m : Migrate)
    (prog : String) (rest : List String) (v : Nat) (hready : Ready lib w env m)
    (hargs : w.args = prog :: "down" :: rest)
    (hsorted : m.source.versions.Pairwise (· < ·)) (hnofail : m.source.failing = [])
    (hclean : m.db.dirty = false) (hv : m.db.version = (v : Int))
    (hmem : v ∈ m.source.versions) :
    (main lib golangMigrate w).calls = [.Down] ∧
    (main lib golangMigrate w).exit = 0 ∧
    (main lib golangMigrate w).log =
      ["Rolling back one migration...", "Migration rolled back successfully!"] ∧
    (main lib golangMigrate w).engine =
      some { source := m.source,
             db := { version := -1, dirty := false,
                     executed := m.db.executed ++
                       ((m.source.versions.filter (fun (u : Nat) => u ≤ v)).reverse.map
                         (fun u => (Direction.down, u))) } } := by
  rw [main_of_ready lib golangMigrate w env m prog "down" rest hready hargs]
  have hd : dispatch lib golangMigrate env w m none "down" = cmdDown golangMigrate w.fs m none := by
    simp [dispatch]
  have hD := Down_all_the_way m v hsorted hnofail hclean hv hmem
  have hE : golangMigrate.Down m = Migrate.Down m := rfl
  rw [hd]
  unfold cmdDown
  simp [hE, hD]

/-- Witness of `down_rolls_back_everything`: with the migrations 1 and 2
applied and the database clean at version 2, `down` runs the down bodies of 2
and of 1 and leaves no version stored. -/
theorem down_rolls_back_everything_witness :
    (sampleMigrate (sampleDb 2 false)).source.versions = [1, 2] ∧
    (sampleMigrate (sampleDb 2 false)).db.version = 2 ∧
    ((main sampleLib golangMigrate
        (sampleWorld ["migrate", "down"] (sampleDb 2 false))).engine.map (fun m => m.db)) =
      some { version := -1, dirty := false, executed := [(.down, 2), (.down, 1)] } :=
  ⟨rfl, rfl,
   congrArg (Option.map (fun m => m.db))
     (down_rolls_back_everything sampleLib (sampleWorld ["migrate", "down"] (sampleDb 2 false))
       sampleEnv (sampleMigrate (sampleDb 2 false)) "migrate" [] 2 (sampleWorld_ready _ _) rfl
       (by decide) rfl rfl rfl (by decide)).2.2.2⟩

/-! ## The command `goto` -/

theorem toUint_of_lt (n : Nat) (h : n < 2 ^ 64) : toUint n = n := by
  unfold toUint intSize
  exact Nat.mod_eq_of_lt h

/-- C9: the argument of `goto` is read as an unsigned 64-bit decimal integer.
If the argument is not one, the run ends with a non-zero exit status and no
engine method is called (the instance is left as `migrate.New` returned it).
If it is one, of value `n`, exactly one engine method is called, `Migrate(n)`,
and the run succeeds when that call returns nil or `ErrNoChange`. -/
theorem goto_takes_uint64 {σ : Type} (lib : Lib) (E : Engine σ) (w : World σ) (env : Env)
    (m : σ) (prog s : String) (rest : List String) (hready : Ready lib w env m)
    (hargs : w.args = prog :: "goto" :: s :: rest) :
    ((¬ ∃ n, IsUint64 s n) →
      (main lib E w).exit ≠ 0 ∧ (main lib E w).calls = [] ∧ (main lib E w).engine = some m) ∧
    (∀ n, IsUint64 s n →
      (main lib E w).calls = [.Migrate n] ∧
      (main lib E w).engine = some (E.Migrate n m).1 ∧
      (((E.Migrate n m).2 = none ∨ (E.Migrate n m).2 = some .ErrNoChange) →
        (main lib E w).exit = 0 ∧
        (main lib E w).log = ["Migrating to version " ++ toString n ++ "...",
          "Migration to specific version successful!"])) := by
  rw [main_of_ready lib E w env m prog "goto" (s :: rest) hready hargs]
  have hd : dispatch lib E env w m none "goto" = cmdGoto lib E w.fs m w.args := by
    simp [dispatch]
  rw [hd, hargs]
  unfold cmdGoto
  cases hp : ParseUint s with
  | error e =>
    simp only [hp]
    refine ⟨fun _ => by simp, ?_⟩
    intro n hn
    rw [(ParseUint_ok_iff s n).2 hn] at hp
    cases hp
  | ok v =>
    simp only [hp]
    have hv : IsUint64 s v := (ParseUint_ok_iff s v).1 hp
    refine ⟨fun h => absurd ⟨v, hv⟩ h, ?_⟩
    intro n hn
    have hnv : n = v := by
      have h1 := (ParseUint_ok_iff s n).2 hn
      rw [hp] at h1
      cases h1
      rfl
    subst hnv
    have hu : toUint n = n := toUint_of_lt n hn.2.2.2
    simp only [hu]
    refine ⟨?_, ?_, ?_⟩
    · split <;> rfl
    · split <;> rfl
    · intro hres
      have hno : ¬ ((E.Migrate n m).2 ≠ none ∧ (E.Migrate n m).2 ≠ some .ErrNoChange) := by
        rcases hres with h | h <;> simp [h]
      simp [hno]

/-- Witness of `goto_takes_uint64`: `goto 2` with the database clean at
version 2 calls `Migrate(2)` once; the library returns `ErrNoChange` and the
run succeeds. -/
theorem goto_takes_uint64_witness :
    IsUint64 "2" 2 ∧
    (golangMigrate.Migrate 2 (sampleMigrate (sampleDb 2 false))).2 = some .ErrNoChange ∧
    (main sampleLib golangMigrate
      (sampleWorld ["migrate", "goto", "2"] (sampleDb 2 false))).calls = [.Migrate 2] ∧
    (main sampleLib golangMigrate
      (sampleWorld ["migrate", "goto", "2"] (sampleDb 2 false))).exit = 0 :=
  ⟨(ParseUint_ok_iff "2" 2).1 (by decide), by decide,
   ((goto_takes_uint64 sampleLib golangMigrate
      (sampleWorld ["migrate", "goto", "2"] (sampleDb 2 false)) sampleEnv
      (sampleMigrate (sampleDb 2 false)) "migrate" "2" [] (sampleWorld_ready _ _) rfl).2 2
      ((ParseUint_ok_iff "2" 2).1 (by decide))).1,
   (((goto_takes_uint64 sampleLib golangMigrate
      (sampleWorld ["migrate", "goto", "2"] (sampleDb 2 false)) sampleEnv
      (sampleMigrate (sampleDb 2 false)) "migrate" "2" [] (sampleWorld_ready _ _) rfl).2 2
      ((ParseUint_ok_iff "2" 2).1 (by decide))).2.2 (Or.inr (by decide))).1⟩

/-! ## The command `force` -/

theorem ParseInt_range (s : String) (v : Int) (h : ParseInt s = .ok v) :
    -(2 ^ 63) ≤ v ∧ v < 2 ^ 63 := by
  unfold ParseInt at h
  split at h
  · cases h
  · dsimp only at h
    split at h
    · cases h
    · cases h
    · rename_i un hun
      split at h
      · cases h
      · split at h
        · cases h
        · rename_i h1 h2
          cases h
          split
          · rename_i hneg
            simp only [hneg, true_and, not_lt, Bool.true_eq_false, false_and, not_false_eq_true,
              gt_iff_lt] at h1 h2
            omega
          · rename_i hneg
            simp only [Bool.not_eq_true] at hneg
            simp only [hneg, true_and, ge_iff_le, not_le] at h1
            omega

theorem toInt_of_range (v : Int) (h : -(2 ^ 63) ≤ v ∧ v < 2 ^ 63) : toInt v = v := by
  unfold toInt intSize
  norm_num at h ⊢
  omega

/-- C3 (as amended): for every prior state of the database and every
argument `s` that `ParseInt` accepts, with value `v`, the `force` command
calls exactly one engine method, `Force(v)`, and no migration body is run. If
`v ≥ -1` the run succeeds and the database holds version `v` with `dirty =
false` (`v = -1` being the state in which no migration is applied); if `v <
-1` the library refuses the version, the run ends with exit status 1 and the
database is unchanged. -/
theorem force_sets_version (lib : Lib) (w : World Migrate) (env : Env) (m : Migrate)
    (prog s : String) (rest : List String) (v : Int) (hready : Ready lib w env m)
    (hargs : w.args = prog :: "force" :: s :: rest) (hv : ParseInt s = .ok v) :
    (main lib golangMigrate w).calls = [.Force v] ∧
    (-1 ≤ v →
      (main lib golangMigrate w).exit = 0 ∧
      (main lib golangMigrate w).engine =
        some { source := m.source,
               db := { version := v, dirty := false, executed := m.db.executed } }) ∧
    (v < -1 →
      (main lib golangMigrate w).exit = 1 ∧ (main lib golangMigrate w).engine = some m) := by
  rw [main_of_ready lib golangMigrate w env m prog "force" (s :: rest) hready hargs]
  have hd : dispatch lib golangMigrate env w m none "force" =
      cmdForce lib golangMigrate w.fs m w.args := by
    simp [dispatch]
  rw [hd, hargs]
  have hi : toInt v = v := toInt_of_range v (ParseInt_range s v hv)
  unfold cmdForce
  simp only [hv, hi, golangMigrate, Migrate.Force]
  by_cases hlt : v < -1
  · have hge : ¬ (-1 ≤ v) := by omega
    simp [hlt, hge]
  · have hge : -1 ≤ v := by omega
    simp [hlt, hge]

/-- Witness of `force_sets_version`: `force 7` on a database dirty at version 1. -/
theorem force_sets_version_witness :
    ParseInt "7" = .ok 7 ∧
    (main sampleLib golangMigrate
      (sampleWorld ["migrate", "force", "7"] (sampleDb 1 true))).calls = [.Force 7] :=
  ⟨by decide,
   (force_sets_version sampleLib (sampleWorld ["migrate", "force", "7"] (sampleDb 1 true))
      sampleEnv (sampleMigrate (sampleDb 1 true)) "migrate" "7" [] 7 (sampleWorld_ready _ _) rfl
      (by decide)).1⟩

/-- C3 (as stated) fails: `force -2` on a database dirty at version 1 is
accepted by the parser, but the run ends with exit status 1 and the database
is still dirty at version 1, not clean at version -2. -/
theorem force_negative_refused :
    ParseInt "-2" = .ok (-2) ∧
    (main sampleLib golangMigrate
      (sampleWorld ["migrate", "force", "-2"] (sampleDb 1 true))).exit = 1 ∧
    ((main sampleLib golangMigrate
      (sampleWorld ["migrate", "force", "-2"] (sampleDb 1 true))).engine.map (fun m => m.db)) =
      some { version := 1, dirty := true, executed := [] } ∧
    ¬ (((main sampleLib golangMigrate
      (sampleWorld ["migrate", "force", "-2"] (sampleDb 1 true))).engine.map (fun m => m.db)) =
      some { version := -2, dirty := false, executed := [] }) := by
  rw [main_of_ready sampleLib golangMigrate _ sampleEnv _ "migrate" "force" ["-2"]
    (sampleWorld_ready _ _) rfl]
  decide

/-! ## The commands `status` and `version` -/

theorem digitChar_digit (k : Nat) (h : k < 10) :
    '0' ≤ Nat.digitChar k ∧ Nat.digitChar k ≤ '9' := by
  interval_cases k <;> decide

theorem toDigitsCore_digits (f : Nat) : ∀ (n : Nat) (acc : List Char),
    (∀ c ∈ acc, '0' ≤ c ∧ c ≤ '9') → ∀ c ∈ Nat.toDigitsCore 10 f n acc, '0' ≤ c ∧ c ≤ '9' := by
  induction f with
  | zero => intro n acc hacc; simpa [Nat.toDigitsCore] using hacc
  | succ f ih =>
    intro n acc hacc
    have hd := digitChar_digit (n % 10) (Nat.mod_lt _ (by decide))
    have hacc2 : ∀ c ∈ Nat.digitChar (n % 10) :: acc, '0' ≤ c ∧ c ≤ '9' := by
      intro c hc
      rcases List.mem_cons.1 hc with h | h
      · subst h; exact hd
      · exact hacc c h
    unfold Nat.toDigitsCore
    dsimp only
    split
    · exact hacc2
    · exact ih _ _ hacc2

theorem toDigits_digits (n : Nat) : ∀ c ∈ Nat.toDigits 10 n, '0' ≤ c ∧ c ≤ '9' := by
  unfold Nat.toDigits
  exact toDigitsCore_digits _ _ _ (by simp)

/-- C5: when the engine reports version `v` and dirty flag `d` without error,
the `version` command ends with exit status 0 and its standard output is the
decimal digits of `v`, followed by the marker " (dirty)" and a line
terminator when `d` is true and by nothing when `d` is false; the rendering
of `v` consists of decimal digits only. -/
theorem version_prints_bare_integer {σ : Type} (E : Engine σ) (fs : FileSystem) (m : σ)
    (v : Nat) (d : Bool) (h : E.Version m = (v, d, none)) :
    (getMigrationVersion E fs m).exit = 0 ∧
    (getMigrationVersion E fs m).stdout =
      Nat.repr v ++ (if d = true then " (dirty)" else "") ++ (if d = true then "\n" else "") ∧
    (∀ c ∈ (Nat.repr v).data, '0' ≤ c ∧ c ≤ '9') ∧
    (getMigrationVersion E fs m).calls = [.Version] := by
  refine ⟨?_, ?_, toDigits_digits v, ?_⟩
  · simp [getMigrationVersion, h]
  · cases d
    · simp [getMigrationVersion, h]; rfl
    · simp [getMigrationVersion, h, String.append_assoc]; rfl
  · simp [getMigrationVersion, h]

/-- Witness of `version_prints_bare_integer`: the library engine on a
database dirty at version 3. -/
theorem version_prints_bare_integer_witness :
    golangMigrate.Version (sampleMigrate (sampleDb 3 true)) = (3, true, none) ∧
    (getMigrationVersion golangMigrate (sampleFS []) (sampleMigrate (sampleDb 3 true))).stdout =
      "3 (dirty)\n" :=
  ⟨by decide,
   (version_prints_bare_integer golangMigrate (sampleFS []) (sampleMigrate (sampleDb 3 true))
      3 true (by decide)).2.1⟩

/-- C4 (as amended): `status` tells a database that was never migrated from
one at version 0: the texts it logs differ after trimming trailing white
space. `version` does not: in both cases its output is "0" after trimming
trailing white space. -/
theorem status_distinguishes_version_prints_zero {σ : Type} (E : Engine σ) (fs : FileSystem)
    (m m0 : σ) (hnil : (E.Version m).2.2 = some .ErrNilVersion)
    (hzero : E.Version m0 = (0, false, none)) :
    trimTrailing (stderrText (checkMigrationStatus E fs m)) ≠
      trimTrailing (stderrText (checkMigrationStatus E fs m0)) ∧
    trimTrailing (getMigrationVersion E fs m).stdout = "0" ∧
    trimTrailing (getMigrationVersion E fs m0).stdout = "0" := by
  unfold checkMigrationStatus getMigrationVersion
  simp only [hnil, hzero, if_true, stderrText]
  refine ⟨by decide, by decide, by decide⟩

/-- Witness of `status_distinguishes_version_prints_zero`: the library engine
on a database without a stored version and on one clean at version 0. -/
theorem status_distinguishes_version_prints_zero_witness :
    (golangMigrate.Version (sampleMigrate (sampleDb (-1) false))).2.2 = some .ErrNilVersion ∧
    golangMigrate.Version (sampleMigrate (sampleDb 0 false)) = (0, false, none) ∧
    trimTrailing (getMigrationVersion golangMigrate (sampleFS [])
      (sampleMigrate (sampleDb (-1) false))).stdout = "0" :=
  ⟨by decide, by decide,
   (status_distinguishes_version_prints_zero golangMigrate (sampleFS [])
      (sampleMigrate (sampleDb (-1) false)) (sampleMigrate (sampleDb 0 false))
      (by decide) (by decide)).2.1⟩

/-- C4 (as stated) fails for `version`: on a database that was never migrated
and on a database clean at version 0 the command prints "0\n" and "0", which
are the same text after trimming trailing white space. -/
theorem version_same_for_never_migrated_and_zero :
    (golangMigrate.Version (sampleMigrate (sampleDb (-1) false))).2.2 = some .ErrNilVersion ∧
    golangMigrate.Version (sampleMigrate (sampleDb 0 false)) = (0, false, none) ∧
    (main sampleLib golangMigrate
      (sampleWorld ["migrate", "version"] (sampleDb (-1) false))).stdout = "0\n" ∧
    (main sampleLib golangMigrate
      (sampleWorld ["migrate", "version"] (sampleDb 0 false))).stdout = "0" ∧
    trimTrailing (main sampleLib golangMigrate
        (sampleWorld ["migrate", "version"] (sampleDb (-1) false))).stdout =
      trimTrailing (main sampleLib golangMigrate
        (sampleWorld ["migrate", "version"] (sampleDb 0 false))).stdout := by
  rw [main_of_ready sampleLib golangMigrate _ sampleEnv _ "migrate" "version" []
    (sampleWorld_ready _ _) rfl,
    main_of_ready sampleLib golangMigrate _ sampleEnv _ "migrate" "version" []
    (sampleWorld_ready _ _) rfl]
  decide

/-! ## Scaffolding: the timestamp -/

theorem toDigits_length_le (x e : Nat) (hx : x < 10 ^ e) (he : 0 < e) :
    (Nat.toDigits 10 x).length ≤ e := by
  unfold Nat.toDigits
  exact Nat.toDigitsCore_length 10 (by decide) (x + 1) x e hx he

theorem appendInt_length (x width : Nat) (hx : x < 10 ^ width) (hw : 0 < width) :
    (appendInt x width).length = width := by
  have h := toDigits_length_le x width hx hw
  simp only [appendInt, List.length_append, List.length_replicate]
  omega

theorem appendInt_digits (x width : Nat) : ∀ c ∈ appendInt x width, '0' ≤ c ∧ c ≤ '9' := by
  intro c hc
  simp only [appendInt, List.mem_append] at hc
  rcases hc with h | h
  · rw [List.eq_of_mem_replicate h]
    decide
  · exact toDigits_digits x c h

theorem Format_length (t : Time) (ht : t.valid) : t.Format.length = 14 := by
  obtain ⟨h1, _, h2, _, h3, h4, h5, h6⟩ := ht
  simp only [Time.Format, String.length, List.length_append]
  rw [appendInt_length t.year 4 (by norm_num; omega) (by decide),
    appendInt_length t.month 2 (by norm_num; omega) (by decide),
    appendInt_length t.day 2 (by norm_num; omega) (by decide),
    appendInt_length t.hour 2 (by norm_num; omega) (by decide),
    appendInt_length t.minute 2 (by norm_num; omega) (by decide),
    appendInt_length t.second 2 (by norm_num; omega) (by decide)]

theorem Format_digits (t : Time) : ∀ c ∈ t.Format.data, '0' ≤ c ∧ c ≤ '9' := by
  intro c hc
  simp only [Time.Format, List.mem_append] at hc
  rcases hc with ((((h | h) | h) | h) | h) | h <;> exact appendInt_digits _ _ c h

/-! ## Scaffolding: paths and contents -/

theorem up_path_ne_down_path (P ext : String) : P ++ ".up." ++ ext ≠ P ++ ".down." ++ ext := by
  intro h
  have h2 := congrArg String.data h
  simp at h2

theorem jsUpContent_ne_empty (name : String) : jsUpContent name ≠ "" := by
  intro h
  have h2 := congrArg String.length h
  simp [jsUpContent] at h2
  exact absurd h2.2 (by decide)

theorem jsDownContent_ne_empty (name : String) : jsDownContent name ≠ "" := by
  intro h
  have h2 := congrArg String.length h
  simp [jsDownContent] at h2
  exact absurd h2.2 (by decide)

theorem MarshalIndent_obj_ne_empty (lib : Lib) (k : String) (v : JSON) :
    MarshalIndent lib (.obj [(k, v)]) ≠ "" := by
  intro h
  have h2 := congrArg String.length h
  simp [MarshalIndent, JSON.sortKeys, sortKeysFields, insertField, JSON.render] at h2
  exact absurd h2.2 (by decide)

theorem upText_ne_empty (lib : Lib) (name format : String) : upText lib name format ≠ "" := by
  unfold upText
  split
  · exact jsUpContent_ne_empty name
  · exact MarshalIndent_obj_ne_empty lib _ _

theorem downText_ne_empty (lib : Lib) (name format : String) :
    downText lib name format ≠ "" := by
  unfold downText
  split
  · exact jsDownContent_ne_empty name
  · exact MarshalIndent_obj_ne_empty lib _ _

theorem scaffold_path (env : Env) (now : Time) (name mid ext : String) :
    env "DB_MIGRATION_PATH" ++ "/" ++ (now.Format ++ "_" ++ name) ++ (mid ++ ext) =
      scaffoldPrefix env now name ++ mid ++ ext := by
  simp [scaffoldPrefix, String.append_assoc]

/-- The run of `createMigration` for the formats `js` and `json`: it fails at
the first of `MkdirAll`, the write of the up file and the write of the down
file that reports an error, and otherwise writes the up file and then the
down file. -/
theorem createMigration_run {σ : Type} (lib : Lib) (env : Env) (now : Time) (fs : FileSystem)
    (m : σ) (name format : String) (hfmt : format = "js" ∨ format = "json") :
    (((fs.mkdirErr (env "DB_MIGRATION_PATH")).isSome ∨
        (fs.writeErr (scaffoldPrefix env now name ++ ".up." ++ format)).isSome ∨
        (fs.writeErr (scaffoldPrefix env now name ++ ".down." ++ format)).isSome) →
      (createMigration lib env now fs m name format).exit = 1) ∧
    (fs.mkdirErr (env "DB_MIGRATION_PATH") = none →
      fs.writeErr (scaffoldPrefix env now name ++ ".up." ++ format) = none →
      fs.writeErr (scaffoldPrefix env now name ++ ".down." ++ format) = none →
      (createMigration lib env now fs m name format).exit = 0 ∧
      (createMigration lib env now fs m name format).fs.files =
        (scaffoldPrefix env now name ++ ".down." ++ format, downText lib name format) ::
        (scaffoldPrefix env now name ++ ".up." ++ format, upText lib name format) ::
        (fs.files.filter (fun f => f.1 ≠ scaffoldPrefix env now name ++ ".up." ++ format)).filter
          (fun f => f.1 ≠ scaffoldPrefix env now name ++ ".down." ++ format)) := by
  have hne := up_path_ne_down_path (scaffoldPrefix env now name) format
  have pu_js := scaffold_path env now name ".up." "js"
  have pd_js := scaffold_path env now name ".down." "js"
  have pu_json := scaffold_path env now name ".up." "json"
  have pd_json := scaffold_path env now name ".down." "json"
  have e1 : (".up." ++ "js" : String) = ".up.js" := rfl
  have e2 : (".down." ++ "js" : String) = ".down.js" := rfl
  have e3 : (".up." ++ "json" : String) = ".up.json" := rfl
  have e4 : (".down." ++ "json" : String) = ".down.json" := rfl
  rw [e1] at pu_js
  rw [e2] at pd_js
  rw [e3] at pu_json
  rw [e4] at pd_json
  rcases hfmt with hf | hf <;> subst hf
  · unfold createMigration createJavaScriptMigration FileSystem.MkdirAll FileSystem.WriteFile
    simp only [pu_js, pd_js, upText, downText, if_true]
    cases h1 : fs.mkdirErr (env "DB_MIGRATION_PATH") with
    | some e => simp
    | none =>
      cases h2 : fs.writeErr (scaffoldPrefix env now name ++ ".up." ++ "js") with
      | some e => simp [h2]
      | none =>
        cases h3 : fs.writeErr (scaffoldPrefix env now name ++ ".down." ++ "js") with
        | some e => simp [h2, h3]
        | none => simp [h2, h3, hne]
  · have hj : ("json" : String) ≠ "js" := by decide
    unfold createMigration createJSONMigration FileSystem.MkdirAll FileSystem.WriteFile
    simp only [pu_json, pd_json, upText, downText, hj, if_true, if_false]
    cases h1 : fs.mkdirErr (env "DB_MIGRATION_PATH") with
    | some e => simp
    | none =>
      cases h2 : fs.writeErr (scaffoldPrefix env now name ++ ".up." ++ "json") with
      | some e => simp [h2]
      | none =>
        cases h3 : fs.writeErr (scaffoldPrefix env now name ++ ".down." ++ "json") with
        | some e => simp [h2, h3]
        | none => simp [h2, h3, hne]

/-- The `create` command is `createMigration` on `os.Args[2]` and the value
that the flag set leaves in `format`. -/
theorem main_create {σ : Type} (lib : Lib) (E : Engine σ) (w : World σ) (env : Env) (m : σ)
    (prog name format : String) (flags : List String) (hready : Ready lib w env m)
    (hargs : w.args = prog :: "create" :: name :: flags)
    (hflags : flagParse flags "js" = .parsed format) :
    main lib E w = createMigration lib env w.now w.fs m name format := by
  rw [main_of_ready lib E w env m prog "create" (name :: flags) hready hargs]
  simp [dispatch, hargs, hflags]

/-- C6: for every name and for the formats `js` and `json`, a `create` run on
which `MkdirAll` and the two writes report no error ends with exit status 0
and writes exactly two files: `P.up.<format>` and then `P.down.<format>`, for
the one prefix `P = <DB_MIGRATION_PATH>/<timestamp>_<name>`; the timestamp is
a string of 14 decimal digits, the two paths differ, and both contents are
not empty. Every other file is left as it was. -/
theorem create_writes_two_files {σ : Type} (lib : Lib) (env : Env) (now : Time)
    (fs : FileSystem) (m : σ) (name format : String) (hnow : now.valid)
    (hfmt : format = "js" ∨ format = "json")
    (hdir : fs.mkdirErr (env "DB_MIGRATION_PATH") = none)
    (hup : fs.writeErr (scaffoldPrefix env now name ++ ".up." ++ format) = none)
    (hdown : fs.writeErr (scaffoldPrefix env now name ++ ".down." ++ format) = none) :
    scaffoldPrefix env now name = env "DB_MIGRATION_PATH" ++ "/" ++ now.Format ++ "_" ++ name ∧
    now.Format.length = 14 ∧ (∀ c ∈ now.Format.data, '0' ≤ c ∧ c ≤ '9') ∧
    (createMigration lib env now fs m name format).exit = 0 ∧
    (∃ upContent downContent : String, upContent ≠ "" ∧ downContent ≠ "" ∧
      (createMigration lib env now fs m name format).fs.files =
        (scaffoldPrefix env now name ++ ".down." ++ format, downContent) ::
        (scaffoldPrefix env now name ++ ".up." ++ format, upContent) ::
        (fs.files.filter (fun f => f.1 ≠ scaffoldPrefix env now name ++ ".up." ++ format)).filter
          (fun f => f.1 ≠ scaffoldPrefix env now name ++ ".down." ++ format)) ∧
    scaffoldPrefix env now name ++ ".up." ++ format ≠
      scaffoldPrefix env now name ++ ".down." ++ format := by
  have hrun := (createMigration_run lib env now fs m name format hfmt).2 hdir hup hdown
  refine ⟨rfl, Format_length now hnow, Format_digits now, hrun.1, ?_, up_path_ne_down_path _ _⟩
  exact ⟨upText lib name format, downText lib name format, upText_ne_empty lib name format,
    downText_ne_empty lib name format, hrun.2⟩

/-- Witness of `create_writes_two_files`: `create add_users --format=json` at
`sampleTime` on an empty file system on which nothing fails. -/
theorem create_writes_two_files_witness :
    sampleTime.valid ∧
    (createMigration sampleLib sampleEnv sampleTime (sampleFS []) () "add_users" "json").exit = 0 ∧
    scaffoldPrefix sampleEnv sampleTime "add_users" ++ ".up." ++ "json" =
      "deployments/mongo/migration/20261101090503_add_users.up.json" :=
  ⟨by decide,
   (create_writes_two_files sampleLib sampleEnv sampleTime (sampleFS []) () "add_users" "json"
      (by decide) (Or.inr rfl) rfl rfl rfl).2.2.2.1,
   by decide⟩

/-- C7 (as amended): `create` makes no check for existing files. For the
formats `js` and `json` a run ends with exit status 0 exactly when `MkdirAll`
and the two writes report no error, and then the up path and the down path
hold the generated contents, whatever the file system held before. -/
theorem create_overwrites_existing {σ : Type} (lib : Lib) (env : Env) (now : Time)
    (fs : FileSystem) (m : σ) (name format : String) (hfmt : format = "js" ∨ format = "json") :
    ((createMigration lib env now fs m name format).exit = 0 ↔
      (fs.mkdirErr (env "DB_MIGRATION_PATH") = none ∧
        fs.writeErr (scaffoldPrefix env now name ++ ".up." ++ format) = none ∧
        fs.writeErr (scaffoldPrefix env now name ++ ".down." ++ format) = none)) ∧
    ((createMigration lib env now fs m name format).exit = 0 →
      (createMigration lib env now fs m name format).fs.read
          (scaffoldPrefix env now name ++ ".up." ++ format) = some (upText lib name format) ∧
      (createMigration lib env now fs m name format).fs.read
          (scaffoldPrefix env now name ++ ".down." ++ format) =
        some (downText lib name format)) := by
  have hrun := createMigration_run lib env now fs m name format hfmt
  have hne := up_path_ne_down_path (scaffoldPrefix env now name) format
  have hiff : (createMigration lib env now fs m name format).exit = 0 ↔
      (fs.mkdirErr (env "DB_MIGRATION_PATH") = none ∧
        fs.writeErr (scaffoldPrefix env now name ++ ".up." ++ format) = none ∧
        fs.writeErr (scaffoldPrefix env now name ++ ".down." ++ format) = none) := by
    constructor
    · intro h0
      by_contra hcon
      have hsome : (fs.mkdirErr (env "DB_MIGRATION_PATH")).isSome ∨
          (fs.writeErr (scaffoldPrefix env now name ++ ".up." ++ format)).isSome ∨
          (fs.writeErr (scaffoldPrefix env now name ++ ".down." ++ format)).isSome := by
        by_contra hn
        apply hcon
        simp only [not_or, Option.not_isSome_iff_eq_none] at hn
        exact hn
      have h1 := hrun.1 hsome
      omega
    · rintro ⟨h1, h2, h3⟩
      exact (hrun.2 h1 h2 h3).1
  refine ⟨hiff, ?_⟩
  intro h0
  obtain ⟨h1, h2, h3⟩ := hiff.1 h0
  have hfiles := (hrun.2 h1 h2 h3).2
  have hb : (scaffoldPrefix env now name ++ ".up." ++ format ==
      scaffoldPrefix env now name ++ ".down." ++ format) = false := by
    simpa using hne
  unfold FileSystem.read
  rw [hfiles]
  constructor
  · simp [List.lookup, hb]
  · simp [List.lookup]

/-- Witness of `create_overwrites_existing`: `create add_users` at
`sampleTime` on a file system in which the up file already exists. -/
theorem create_overwrites_existing_witness :
    ("js" = "js" ∨ "js" = "json") ∧
    (createMigration sampleLib sampleEnv sampleTime sampleExistingFS () "add_users" "js").fs.read
        (scaffoldPrefix sampleEnv sampleTime "add_users" ++ ".up." ++ "js") =
      some (upText sampleLib "add_users" "js") :=
  ⟨Or.inl rfl,
   ((create_overwrites_existing sampleLib sampleEnv sampleTime sampleExistingFS ()
      "add_users" "js" (Or.inl rfl)).2
      ((create_overwrites_existing sampleLib sampleEnv sampleTime sampleExistingFS ()
        "add_users" "js" (Or.inl rfl)).1.2 ⟨rfl, rfl, rfl⟩)).1⟩

/-- C7 (as stated) fails: when the up path already holds a file with content
`old`, `create add_users` ends with exit status 0 and the file holds the
generated text instead. -/
theorem create_replaces_existing_file :
    sampleExistingFS.read "deployments/mongo/migration/20261101090503_add_users.up.js" =
      some "old" ∧
    scaffoldPrefix sampleEnv sampleTime "add_users" ++ ".up." ++ "js" =
      "deployments/mongo/migration/20261101090503_add_users.up.js" ∧
    (createMigration sampleLib sampleEnv sampleTime sampleExistingFS () "add_users" "js").exit =
      0 ∧
    (createMigration sampleLib sampleEnv sampleTime sampleExistingFS () "add_users"
        "js").fs.read "deployments/mongo/migration/20261101090503_add_users.up.js" =
      some (jsUpContent "add_users") ∧
    jsUpContent "add_users" ≠ "old" := by
  refine ⟨by decide, by decide, ?_, ?_, ?_⟩
  · set_option maxRecDepth 20000 in decide
  · set_option maxRecDepth 20000 in decide
  · set_option maxRecDepth 20000 in decide

/-! ## Scaffolding: the declarative skeleton -/

theorem MarshalIndent_up (lib : Lib) (name : String) :
    MarshalIndent lib (jsonUpContent name) = jsonUpText lib name := by
  apply String.ext
  have h1 : keyLess "options".data "index".data = false := by decide
  have h2 : keyLess "index".data "collection".data = false := by decide
  have h3 : keyLess "document".data "collection".data = false := by decide
  have h4 : keyLess "created_at".data "field".data = true := by decide
  set_option maxRecDepth 100000 in
  simp only [MarshalIndent, jsonUpContent, jsonUpText, JSON.sortKeys, sortKeysFields,
    sortKeysElems, insertField, JSON.render, renderElems, renderFields, newline, String.join,
    List.replicate, h1, h2, h3, h4, if_true, if_false, Bool.false_eq_true, String.data_append,
    List.append_assoc, List.foldl]
  rfl

theorem MarshalIndent_down (lib : Lib) (name : String) :
    MarshalIndent lib (jsonDownContent name) = jsonDownText lib name := by
  apply String.ext
  have h1 : keyLess "filter".data "collection".data = false := by decide
  set_option maxRecDepth 100000 in
  simp only [MarshalIndent, jsonDownContent, jsonDownText, JSON.sortKeys, sortKeysFields,
    sortKeysElems, insertField, JSON.render, renderElems, renderFields, newline, String.join,
    List.replicate, h1, if_false, Bool.false_eq_true, String.data_append,
    List.append_assoc, List.foldl]
  rfl

theorem createJSONMigration_writes {σ : Type} (lib : Lib) (fs : FileSystem) (m : σ)
    (filename name migrationsPath : String)
    (hup : fs.writeErr (migrationsPath ++ "/" ++ filename ++ ".up.json") = none)
    (hdown : fs.writeErr (migrationsPath ++ "/" ++ filename ++ ".down.json") = none) :
    (createJSONMigration lib fs m filename name migrationsPath).exit = 0 ∧
    (createJSONMigration lib fs m filename name migrationsPath).fs.read
        (migrationsPath ++ "/" ++ filename ++ ".up.json") =
      some (MarshalIndent lib (jsonUpContent name)) ∧
    (createJSONMigration lib fs m filename name migrationsPath).fs.read
        (migrationsPath ++ "/" ++ filename ++ ".down.json") =
      some (MarshalIndent lib (jsonDownContent name)) := by
  have h : migrationsPath ++ "/" ++ filename ++ ".up.json" ≠
      migrationsPath ++ "/" ++ filename ++ ".down.json" := by
    intro h
    have h2 := congrArg String.data h
    simp at h2
  have hne : (migrationsPath ++ "/" ++ filename ++ ".up.json" ==
      migrationsPath ++ "/" ++ filename ++ ".down.json") = false := by
    simpa using h
  unfold createJSONMigration FileSystem.WriteFile
  simp [hup, hdown, FileSystem.read, List.lookup, hne, h, List.filter_cons]

/-- C8: for every name, a run of `createJSONMigration` on which the two
writes report no error ends with exit status 0 and leaves in the up file and
in the down file the texts that `json.MarshalIndent` gives for the up and the
down document, which are `jsonUpText` and `jsonDownText`. The up document has
the single key `operations`, whose list is four one-key steps named comment,
createCollection, createIndex, insertOne in this order; the down document has
the single key `operations`, whose list is three one-key steps named comment,
deleteOne, dropCollection in this order. The down steps act on the collection
that the up document creates, the filter of deleteOne is matched by the
document that insertOne inserts, and every step name is one of the six
operation names. -/
theorem json_skeletons {σ : Type} (lib : Lib) (fs : FileSystem) (m : σ)
    (filename name migrationsPath : String)
    (hup : fs.writeErr (migrationsPath ++ "/" ++ filename ++ ".up.json") = none)
    (hdown : fs.writeErr (migrationsPath ++ "/" ++ filename ++ ".down.json") = none) :
    (createJSONMigration lib fs m filename name migrationsPath).exit = 0 ∧
    (createJSONMigration lib fs m filename name migrationsPath).fs.read
        (migrationsPath ++ "/" ++ filename ++ ".up.json") =
      some (MarshalIndent lib (jsonUpContent name)) ∧
    (createJSONMigration lib fs m filename name migrationsPath).fs.read
        (migrationsPath ++ "/" ++ filename ++ ".down.json") =
      some (MarshalIndent lib (jsonDownContent name)) ∧
    MarshalIndent lib (jsonUpContent name) = jsonUpText lib name ∧
    MarshalIndent lib (jsonDownContent name) = jsonDownText lib name ∧
    (jsonUpContent name).keys = ["operations"] ∧
    stepKeys (jsonUpContent name) =
      [["comment"], ["createCollection"], ["createIndex"], ["insertOne"]] ∧
    (jsonDownContent name).keys = ["operations"] ∧
    stepKeys (jsonDownContent name) = [["comment"], ["deleteOne"], ["dropCollection"]] ∧
    (∃ collection document filter : JSON,
      stepParams (jsonUpContent name) "createCollection" = some collection ∧
      (stepParams (jsonUpContent name) "insertOne").bind (fun p => p.get "collection") =
        some collection ∧
      (stepParams (jsonUpContent name) "insertOne").bind (fun p => p.get "document") =
        some document ∧
      (stepParams (jsonDownContent name) "deleteOne").bind (fun p => p.get "collection") =
        some collection ∧
      (stepParams (jsonDownContent name) "deleteOne").bind (fun p => p.get "filter") =
        some filter ∧
      stepParams (jsonDownContent name) "dropCollection" = some collection ∧
      matchesFilter document filter) ∧
    (∀ keys ∈ stepKeys (jsonUpContent name) ++ stepKeys (jsonDownContent name),
      ∀ key ∈ keys, key ∈ opNames) ∧
    stepKeys (jsonUpContent name).sortKeys = stepKeys (jsonUpContent name) ∧
    stepKeys (jsonDownContent name).sortKeys = stepKeys (jsonDownContent name) := by
  have hw := createJSONMigration_writes lib fs m filename name migrationsPath hup hdown
  refine ⟨hw.1, hw.2.1, hw.2.2, MarshalIndent_up lib name, MarshalIndent_down lib name,
    rfl, rfl, rfl, rfl, ?_, ?_, ?_, ?_⟩
  · refine ⟨.str "example_collection",
      .obj [("field", .str "value"), ("created_at", .str "2024-01-01T00:00:00Z")],
      .obj [("field", .str "value")], rfl, rfl, rfl, rfl, rfl, rfl, ?_⟩
    intro entry hentry
    simp only [JSON.fields, List.mem_singleton] at hentry
    subst hentry
    rfl
  · intro keys hkeys key hkey
    have hk : stepKeys (jsonUpContent name) ++ stepKeys (jsonDownContent name) =
        [["comment"], ["createCollection"], ["createIndex"], ["insertOne"],
         ["comment"], ["deleteOne"], ["dropCollection"]] := rfl
    rw [hk] at hkeys
    simp only [List.mem_cons, List.mem_singleton, List.not_mem_nil, or_false] at hkeys
    rcases hkeys with h | h | h | h | h | h | h <;> subst h <;>
      simp only [List.mem_singleton] at hkey <;> subst hkey <;> decide
  · rfl
  · rfl

/-- Witness of `json_skeletons`: the up file that `create add_users
--format=json` writes at `sampleTime` on an empty file system, with the
strings between double quotes. -/
theorem json_skeletons_witness :
    (sampleFS []).writeErr ("deployments/mongo/migration" ++ "/" ++
      "20261101090503_add_users" ++ ".up.json") = none ∧
    (createJSONMigration sampleLib (sampleFS []) () "20261101090503_add_users" "add_users"
        "deployments/mongo/migration").fs.read
        ("deployments/mongo/migration" ++ "/" ++ "20261101090503_add_users" ++ ".up.json") =
      some (MarshalIndent sampleLib (jsonUpContent "add_users")) ∧
    MarshalIndent sampleLib (jsonUpContent "add_users") =
      "\x7b\n  \"operations\": [\n    \x7b\n      \"comment\": \"Up migration for add_users\"\n" ++
      "    \x7d,\n    \x7b\n      \"createCollection\": \"example_collection\"\n    \x7d,\n" ++
      "    \x7b\n      \"createIndex\": \x7b\n        \"collection\": \"example_collection\",\n" ++
      "        \"index\": \x7b\n          \"field\": 1\n        \x7d,\n" ++
      "        \"options\": \x7b\n          \"unique\": true\n        \x7d\n      \x7d\n" ++
      "    \x7d,\n    \x7b\n      \"insertOne\": \x7b\n" ++
      "        \"collection\": \"example_collection\",\n        \"document\": \x7b\n" ++
      "          \"created_at\": \"2024-01-01T00:00:00Z\",\n          \"field\": \"value\"\n" ++
      "        \x7d\n      \x7d\n    \x7d\n  ]\n\x7d" :=
  ⟨rfl,
   (json_skeletons sampleLib (sampleFS []) () "20261101090503_add_users" "add_users"
      "deployments/mongo/migration" rfl rfl).2.1,
   (json_skeletons sampleLib (sampleFS []) () "20261101090503_add_users" "add_users"
      "deployments/mongo/migration" rfl rfl).2.2.2.1.trans
      (by set_option maxRecDepth 100000 in decide)⟩

end MediaLibrary
